import Mathlib

/-!
Verification of the conda-recipe-manager specification against a shallow
embedding of the repository's source code.

The embedding follows the Python sources under
`src/conda_recipe_manager/`. Components of the repository that are absent
from `src/` (for example `parser/selector_query.py`, `parser/enums.py` and
`parser/recipe_parser.py`) are modelled from the specification; each such
definition carries a doc comment that starts with `Modelled from the spec:`.
-/

set_option maxRecDepth 10000

namespace CRM

/-! ## Platform look-up tables (parser/platform_types.py) -/

/-- Operating System enumeration (platform_types.py, class OperatingSystem). -/
inductive OperatingSystem where
  | LINUX
  | OSX
  | UNIX
  | WINDOWS
deriving DecidableEq, Repr

/-- System Architecture enumeration (platform_types.py, class Arch). -/
inductive Arch where
  | SYS_390
  | X_86
  | X_86_64
  | AARCH_64
  | ARM_64
  | ARM_V6L
  | ARM_V7L
  | PPC_64_LE
deriving DecidableEq, Repr

/-- Platform alias enumeration (platform_types.py, class PlatformAlias). -/
inductive PlatformAlias where
  | LINUX_32
  | LINUX_64
  | WIN_32
  | WIN_64
deriving DecidableEq, Repr

/-- Platform enumeration (platform_types.py, class Platform). -/
inductive Platform where
  | LINUX_32
  | LINUX_64
  | LINUX_AARCH_64
  | LINUX_ARM_V6L
  | LINUX_ARM_V7L
  | LINUX_PPC_64_LE
  | LINUX_SYS_390
  | OSX_64
  | OSX_ARM_64
  | WIN_32
  | WIN_64
  | WIN_ARM_64
deriving DecidableEq, Repr

/-- String value of each `Platform` member (platform_types.py; `Platform` is a `StrEnum`). -/
def Platform.strValue : Platform → String
  | .LINUX_32 => "linux-32"
  | .LINUX_64 => "linux-64"
  | .LINUX_AARCH_64 => "linux-aarch64"
  | .LINUX_ARM_V6L => "linux-armv6l"
  | .LINUX_ARM_V7L => "linux-armv7l"
  | .LINUX_PPC_64_LE => "linux-ppc64le"
  | .LINUX_SYS_390 => "linux-s390x"
  | .OSX_64 => "osx-64"
  | .OSX_ARM_64 => "osx-arm64"
  | .WIN_32 => "win-32"
  | .WIN_64 => "win-64"
  | .WIN_ARM_64 => "win-arm64"

/-- Set of platforms shared by the x86-64 architecture (platform_types.py,
`get_platforms_by_arch`, local `x86_64_set`). -/
def x86_64Set : List Platform := [.LINUX_64, .OSX_64, .WIN_64]

/-- Translation of `get_platforms_by_arch` (platform_types.py). The string-sanitizing
entry branch is omitted: callers in the selector engine always pass an `Arch` member. -/
def getPlatformsByArch : Arch → List Platform
  | .SYS_390 => [.LINUX_SYS_390]
  | .X_86 => [.LINUX_32, .WIN_32] ++ x86_64Set
  | .X_86_64 => x86_64Set
  | .AARCH_64 => [.LINUX_AARCH_64]
  | .ARM_64 => [.OSX_ARM_64, .WIN_ARM_64]
  | .ARM_V6L => [.LINUX_ARM_V6L]
  | .ARM_V7L => [.LINUX_ARM_V7L]
  | .PPC_64_LE => [.LINUX_PPC_64_LE]

/-- Set of OSX platforms (platform_types.py, `get_platforms_by_os`, local `osx_set`). -/
def osxSet : List Platform := [.OSX_64, .OSX_ARM_64]

/-- Set of Linux platforms (platform_types.py, `get_platforms_by_os`, local `linux_set`). -/
def linuxSet : List Platform :=
  [.LINUX_32, .LINUX_64, .LINUX_AARCH_64, .LINUX_ARM_V6L, .LINUX_ARM_V7L,
   .LINUX_PPC_64_LE, .LINUX_SYS_390]

/-- Translation of `get_platforms_by_os` (platform_types.py). -/
def getPlatformsByOs : OperatingSystem → List Platform
  | .LINUX => linuxSet
  | .OSX => osxSet
  | .UNIX => osxSet ++ linuxSet
  | .WINDOWS => [.WIN_32, .WIN_64, .WIN_ARM_64]

/-- Translation of `get_platforms_by_alias` (platform_types.py). -/
def getPlatformsByAlias : PlatformAlias → List Platform
  | .LINUX_32 => [.LINUX_32]
  | .LINUX_64 => [.LINUX_64]
  | .WIN_32 => [.WIN_32]
  | .WIN_64 => [.WIN_64]

/-! ## Selector engine (parser/selector_parser.py) -/

/-- Modelled from the spec: `parser/enums.py` is absent from `src/`; the grammar in
section 4.2 uses the boolean operators `or`, `and` and `not` (class LogicOp, a `StrEnum`). -/
inductive LogicOp where
  | AND
  | OR
  | NOT
deriving DecidableEq, Repr

/-- String value of each `LogicOp` member. Modelled from the spec: these are the
operator spellings of the selector grammar in section 4.2. -/
def LogicOp.strValue : LogicOp → String
  | .AND => "and"
  | .OR => "or"
  | .NOT => "not"

/-- Translation of the `SelectorValue` union (selector_parser.py):
`LogicOp | PlatformQualifiers | str`, where `PlatformQualifiers` is
`Arch | OperatingSystem | Platform`; `_init_value` only ever produces a
platform alias, an operating system, an architecture, a logic op, or the
raw string. -/
inductive SelectorValue where
  | platformAlias (a : PlatformAlias)
  | os (o : OperatingSystem)
  | arch (a : Arch)
  | logicOp (op : LogicOp)
  | freeStr (s : String)
deriving DecidableEq, Repr

/-- Table used by `_SelectorNode._init_value` to recognise platform aliases
(selector_parser.py; membership in `ALL_PLATFORM_ALIASES`). -/
def lookupPlatformAlias : String → Option PlatformAlias
  | "linux32" => some .LINUX_32
  | "linux64" => some .LINUX_64
  | "win32" => some .WIN_32
  | "win64" => some .WIN_64
  | _ => none

/-- Table used by `_SelectorNode._init_value` to recognise operating systems
(selector_parser.py; membership in `ALL_OPERATING_SYSTEMS`). -/
def lookupOperatingSystem : String → Option OperatingSystem
  | "linux" => some .LINUX
  | "osx" => some .OSX
  | "unix" => some .UNIX
  | "win" => some .WINDOWS
  | _ => none

/-- Table used by `_SelectorNode._init_value` to recognise architectures
(selector_parser.py; membership in `ALL_ARCHITECTURES`). -/
def lookupArch : String → Option Arch
  | "s390x" => some .SYS_390
  | "x86" => some .X_86
  | "x86_64" => some .X_86_64
  | "aarch64" => some .AARCH_64
  | "arm64" => some .ARM_64
  | "armv6l" => some .ARM_V6L
  | "armv7l" => some .ARM_V7L
  | "ppc64le" => some .PPC_64_LE
  | _ => none

/-- Table used by `_SelectorNode._init_value` to recognise logic operators
(selector_parser.py; membership in `ALL_LOGIC_OPS`). -/
def lookupLogicOp : String → Option LogicOp
  | "and" => some .AND
  | "or" => some .OR
  | "not" => some .NOT
  | _ => none

/-- ASCII lower-casing of one character, written as an explicit table so that
it evaluates inside the kernel. Selector tokens are ASCII; Python's
`str.lower()` agrees with this function on them. -/
def charLower : Char → Char
  | 'A' => 'a'
  | 'B' => 'b'
  | 'C' => 'c'
  | 'D' => 'd'
  | 'E' => 'e'
  | 'F' => 'f'
  | 'G' => 'g'
  | 'H' => 'h'
  | 'I' => 'i'
  | 'J' => 'j'
  | 'K' => 'k'
  | 'L' => 'l'
  | 'M' => 'm'
  | 'N' => 'n'
  | 'O' => 'o'
  | 'P' => 'p'
  | 'Q' => 'q'
  | 'R' => 'r'
  | 'S' => 's'
  | 'T' => 't'
  | 'U' => 'u'
  | 'V' => 'v'
  | 'W' => 'w'
  | 'X' => 'x'
  | 'Y' => 'y'
  | 'Z' => 'z'
  | c => c

/-- ASCII lower-casing of a string (Python `value.lower()`). -/
def pyLower (s : String) : String :=
  String.mk (s.data.map charLower)

/-- Translation of `_SelectorNode._init_value` (selector_parser.py): tries the
platform aliases, the operating systems, the architectures, then the logic
operators, in that order, falling back to the raw string. -/
def initSelectorValue (value : String) : SelectorValue :=
  let lowerVal := pyLower value
  match lookupPlatformAlias lowerVal with
  | some a => .platformAlias a
  | none =>
    match lookupOperatingSystem lowerVal with
    | some o => .os o
    | none =>
      match lookupArch lowerVal with
      | some a => .arch a
      | none =>
        match lookupLogicOp lowerVal with
        | some op => .logicOp op
        | none => .freeStr value

/-- Translation of `_SelectorNode` (selector_parser.py): a selector parse-tree
node holding a `SelectorValue` plus optional left and right children. -/
inductive SelNode where
  | mk (value : SelectorValue) (lNode rNode : Option SelNode)

/-- Value stored in a selector node (field access `node.value`). -/
def SelNode.value : SelNode → SelectorValue
  | .mk v _ _ => v

/-- Left child of a selector node (field access `node.l_node`). -/
def SelNode.lNode : SelNode → Option SelNode
  | .mk _ l _ => l

/-- Right child of a selector node (field access `node.r_node`). -/
def SelNode.rNode : SelNode → Option SelNode
  | .mk _ _ r => r

/-- Decidable equality for selector nodes, by structural recursion (the derive
handler does not support this nested inductive). -/
def SelNode.decEq : (a b : SelNode) → Decidable (a = b)
  | .mk v1 l1 r1, .mk v2 l2 r2 =>
    let dl : Decidable (l1 = l2) :=
      match l1, l2 with
      | none, none => isTrue rfl
      | some a, some b =>
        match SelNode.decEq a b with
        | isTrue h => isTrue (congrArg some h)
        | isFalse h => isFalse (fun hh => h (Option.some.inj hh))
      | none, some _ => isFalse (fun hh => Option.noConfusion hh)
      | some _, none => isFalse (fun hh => Option.noConfusion hh)
    let dr : Decidable (r1 = r2) :=
      match r1, r2 with
      | none, none => isTrue rfl
      | some a, some b =>
        match SelNode.decEq a b with
        | isTrue h => isTrue (congrArg some h)
        | isFalse h => isFalse (fun hh => h (Option.some.inj hh))
      | none, some _ => isFalse (fun hh => Option.noConfusion hh)
      | some _, none => isFalse (fun hh => Option.noConfusion hh)
    match instDecidableEqSelectorValue v1 v2, dl, dr with
    | isTrue hv, isTrue hl, isTrue hr => isTrue (by rw [hv, hl, hr])
    | isFalse hv, _, _ => isFalse (fun hh => hv (by injection hh))
    | _, isFalse hl, _ => isFalse (fun hh => hl (by injection hh))
    | _, _, isFalse hr => isFalse (fun hh => hr (by injection hh))

instance : DecidableEq SelNode := SelNode.decEq

instance {e a : Type} [DecidableEq e] [DecidableEq a] : DecidableEq (Except e a) := fun x y =>
  match x, y with
  | .ok v1, .ok v2 =>
    match decEq v1 v2 with
    | isTrue h => isTrue (by rw [h])
    | isFalse h => isFalse (fun hh => h (by injection hh))
  | .error e1, .error e2 =>
    match decEq e1 e2 with
    | isTrue h => isTrue (by rw [h])
    | isFalse h => isFalse (fun hh => h (by injection hh))
  | .ok _, .error _ => isFalse (fun hh => Except.noConfusion hh)
  | .error _, .ok _ => isFalse (fun hh => Except.noConfusion hh)

/-- Translation of `_SelectorNode.is_logical_op` (selector_parser.py):
the node's value is one of the logic operators. -/
def SelNode.isLogicalOp (n : SelNode) : Bool :=
  match n.value with
  | .logicOp _ => true
  | _ => false

/-- Translation of `_SelectorNode.is_operator` (selector_parser.py): a logic-op
node that has not yet received operands. -/
def SelNode.isOperator (n : SelNode) : Bool :=
  n.isLogicalOp && n.lNode.isNone && n.rNode.isNone

/-- Modelled from the spec: `parser/selector_query.py` is absent from `src/`.
Section 3 describes the query/`BuildContext` record as a platform plus named
build-environment variables; `does_selector_apply` reads `query.platform`
(an optional platform) and tests free identifiers for membership in
`query.build_env_vars`. -/
structure SelectorQuery where
  platform : Option Platform
  buildEnvVars : List String
deriving DecidableEq, Repr

/-- Translation of the recursive helper `_eval_node` inside
`SelectorParser.does_selector_apply` (selector_parser.py). The `none` (Python
`None`) type-guard base case returns `False`. -/
def evalSelNode (query : SelectorQuery) : SelNode → Bool
  | .mk v l r =>
    match v with
    | .platformAlias a =>
      match query.platform with
      | some p => (getPlatformsByAlias a).contains p
      | none => false
    | .arch a =>
      match query.platform with
      | some p => (getPlatformsByArch a).contains p
      | none => false
    | .os o =>
      match query.platform with
      | some p => (getPlatformsByOs o).contains p
      | none => false
    | .logicOp .NOT =>
      !(match l with
        | none => false
        | some n => evalSelNode query n)
    | .logicOp .AND =>
      (match l with
        | none => false
        | some n => evalSelNode query n) &&
      (match r with
        | none => false
        | some n => evalSelNode query n)
    | .logicOp .OR =>
      (match l with
        | none => false
        | some n => evalSelNode query n) ||
      (match r with
        | none => false
        | some n => evalSelNode query n)
    | .freeStr s => query.buildEnvVars.contains s

/-- Wrapper for the recursive child calls of `_eval_node` (selector_parser.py):
a missing child (Python `None`) evaluates to `False` through the type-guard
base case. This abbreviation is definitionally the inner matches of
`evalSelNode`. -/
def evalOptChild (query : SelectorQuery) : Option SelNode → Bool
  | none => false
  | some n => evalSelNode query n

/-- Recipe schema version (spec section 6; `parser/enums.py` is absent from `src/`). -/
inductive SchemaVersion where
  | V0
  | V1
deriving DecidableEq, Repr

/-- State of a constructed `SelectorParser` (selector_parser.py): the schema
version, the sanitized content string and the optional root of the parse tree. -/
structure SelectorParser where
  schemaVersion : SchemaVersion
  content : String
  root : Option SelNode
deriving DecidableEq

/-- Translation of `SelectorParser.does_selector_apply` (selector_parser.py):
an absent parse tree means the selector trivially applies; a present tree with
no platform in the query never applies; otherwise the tree is evaluated. -/
def SelectorParser.doesSelectorApply (p : SelectorParser) (query : SelectorQuery) : Bool :=
  match p.root with
  | none => true
  | some root =>
    match query.platform with
    | none => false
    | some _ => evalSelNode query root

/-- Errors raised while parsing a selector: `SelectorSyntaxError`
(parser/exceptions.py) plus the `IndexError` a malformed token list can
trigger inside the f-string of a raise statement (selector_parser.py,
`_reduce_not_op` and `_reduce_op` index past the end of `tokens` while
building their error messages). -/
inductive SelErr where
  | selectorSyntax
  | indexError
deriving DecidableEq, Repr

/-- Translation of `SelectorParser._reduce_not_op` (selector_parser.py): folds
each bare NOT operator over the operand that follows it. -/
def reduceNotOp : List SelNode → Except SelErr (List SelNode)
  | [] => .ok []
  | t :: rest =>
    if t.isOperator && t.value == SelectorValue.logicOp .NOT then
      match rest with
      | [] => .error .indexError
      | t2 :: rest2 =>
        if t2.isOperator then .error .selectorSyntax
        else do
          let tl ← reduceNotOp rest2
          .ok (SelNode.mk t.value (some t2) t.rNode :: tl)
    else do
      let tl ← reduceNotOp rest
      .ok (t :: tl)

/-- Inner loop of `SelectorParser._reduce_op` (selector_parser.py): `cur` is the
running operand (`cur_operand`) and the list argument holds the tokens after it. -/
def reduceOpGo (op : LogicOp) (cur : SelNode) : List SelNode → Except SelErr (List SelNode)
  | [] =>
    if cur.isOperator then .error .selectorSyntax
    else .ok [cur]
  | o :: rest =>
    if cur.isOperator then .error .selectorSyntax
    else if !o.isOperator then .error .selectorSyntax
    else if o.value != SelectorValue.logicOp op then
      match rest with
      | [] => .error .indexError
      | next :: rest2 => do
        let tl ← reduceOpGo op next rest2
        .ok (cur :: o :: tl)
    else
      match rest with
      | [] => .error .selectorSyntax
      | next :: rest2 =>
        if next.isOperator then .error .selectorSyntax
        else reduceOpGo op (SelNode.mk o.value (some cur) (some next)) rest2

/-- Translation of `SelectorParser._reduce_op` (selector_parser.py): reduces a
token list by combining runs of the given binary operator, left to right. -/
def reduceOp (op : LogicOp) : List SelNode → Except SelErr (List SelNode)
  | [] => .error .indexError
  | t :: rest => reduceOpGo op t rest

/-- Translation of `SelectorParser._parse_selector_subtree` (selector_parser.py):
NOT first, then AND, then OR; exactly one token must remain. -/
def parseSelectorSubtree (tokens : List SelNode) : Except SelErr SelNode :=
  match tokens with
  | [] => .error .selectorSyntax
  | [t] => .ok t
  | _ => do
    let tokens1 ← reduceNotOp tokens
    match tokens1 with
    | [t] => .ok t
    | _ => do
      let tokens2 ← reduceOp .AND tokens1
      match tokens2 with
      | [t] => .ok t
      | _ => do
        let tokens3 ← reduceOp .OR tokens2
        match tokens3 with
        | [t] => .ok t
        | _ => .error .selectorSyntax

/-- Translation of the `SelectorNodeNestedList` alias (selector_parser.py):
a token is a `_SelectorNode` or a nested token list produced by parentheses. -/
inductive SelTok where
  | leaf (n : SelNode)
  | grp (ts : List SelTok)

/-- The token-flattening loop of `SelectorParser._parse_selector_tree`
(selector_parser.py) with the recursive `_parse_selector_tree` call for nested
lists inlined (its non-empty check, a recursive flattening and
`_parse_selector_subtree`). The fuel argument bounds the recursion depth, which
Python bounds by its own recursion limit; one unit of fuel is spent per token
and per nesting level, so any fuel above the total token count is enough. -/
def flattenSelToks : Nat → List SelTok → Except SelErr (List SelNode)
  | 0, _ => .error .selectorSyntax
  | _ + 1, [] => .ok []
  | f + 1, .leaf n :: rest => do
    let tl ← flattenSelToks f rest
    .ok (n :: tl)
  | f + 1, .grp g :: rest => do
    let sub ←
      if g.isEmpty then (.error .selectorSyntax : Except SelErr SelNode)
      else do
        let nodes ← flattenSelToks f g
        parseSelectorSubtree nodes
    let tl ← flattenSelToks f rest
    .ok (sub :: tl)
termination_by structural fuel _ => fuel

/-- Translation of `SelectorParser._parse_selector_tree` (selector_parser.py):
nested lists become subtree roots, then the flat list is reduced. -/
def parseSelectorTree (fuel : Nat) (toks : List SelTok) : Except SelErr SelNode :=
  if toks.isEmpty then .error .selectorSyntax
  else do
    let nodes ← flattenSelToks fuel toks
    parseSelectorSubtree nodes

/-- Translation of `SelectorParser._pre_process_selector_content`
(selector_parser.py), with the string index replaced by the remaining character
list and an explicit fuel bound on the number of loop steps. A token runs until
the next space or closing parenthesis (`_find_space_or_parenthesis`). -/
def preProcessGo (fuel : Nat) (cs : List Char) : List SelTok × List Char :=
  match fuel, cs with
  | 0, rest => ([], rest)
  | _ + 1, [] => ([], [])
  | f + 1, ')' :: rest => ([], rest)
  | f + 1, '(' :: rest =>
    let (sub, rest1) := preProcessGo f rest
    let (toks, rest2) := preProcessGo f rest1
    (.grp sub :: toks, rest2)
  | f + 1, ' ' :: rest => preProcessGo f rest
  | f + 1, c :: rest =>
    let tokChars := (c :: rest).takeWhile (fun ch => ch != ' ' && ch != ')')
    let rest1 := (c :: rest).dropWhile (fun ch => ch != ' ' && ch != ')')
    let (toks, rest2) := preProcessGo f rest1
    (.leaf (SelNode.mk (initSelectorValue (String.mk tokChars)) none none) :: toks, rest2)
termination_by structural fuel

/-- Entry point of the selector tokenizer (selector_parser.py,
`_pre_process_selector_content(content)`); the fuel is generous enough for the
loop, which consumes at least one character every two steps. -/
def preProcess (content : String) : List SelTok :=
  (preProcessGo (2 * content.length + 2) content.data).1

/-- True for the characters Python's regex gluing removes around comparison
operators (spaces and tabs). -/
def isSpaceTab (c : Char) : Bool :=
  c == ' ' || c == '\t'

/-- Comparison-operator peel used by `glueComparisonOps`: two-character
operators first, then single `<` and `>`. -/
def peelCompOp : List Char → Option (List Char × List Char)
  | '=' :: '=' :: rest => some (['=', '='], rest)
  | '!' :: '=' :: rest => some (['!', '='], rest)
  | '>' :: '=' :: rest => some (['>', '='], rest)
  | '<' :: '=' :: rest => some (['<', '='], rest)
  | '~' :: '=' :: rest => some (['~', '='], rest)
  | '>' :: rest => some (['>'], rest)
  | '<' :: rest => some (['<'], rest)
  | _ => none

/-- Modelled from the spec: `COMPARISON_OPERATOR_PATTERN` is imported by
selector_parser.py from parser/types.py but is absent from the `src/` copy of
that file. Section 4.2 says comparison operators adjacent to a name are glued
into a single token by removing the whitespace around the operator
(`py >= 3.10` becomes `py>=3.10`). -/
def glueGo (fuel : Nat) (cs : List Char) : List Char :=
  match fuel, cs with
  | 0, rest => rest
  | _ + 1, [] => []
  | f + 1, c :: rest =>
    let afterWs := (c :: rest).dropWhile isSpaceTab
    match peelCompOp afterWs with
    | some (op, opRest) => op ++ glueGo f (opRest.dropWhile isSpaceTab)
    | none => c :: glueGo f rest
termination_by structural fuel

/-- String-level wrapper for `glueGo`. -/
def glueComparisonOps (s : String) : String :=
  String.mk (glueGo s.data.length s.data)

/-- Translation of `SelectorParser.__init__` (selector_parser.py): strip the
surrounding brackets of a V0 selector, glue comparison operators, tokenize,
and build the parse tree when any token was produced. -/
def SelectorParser.construct (content : String) (schemaVersion : SchemaVersion) :
    Except SelErr SelectorParser :=
  let initialContent :=
    if schemaVersion == .V0 && content != "" && content.front == '[' && content.back == ']'
    then (content.drop 1).dropRight 1
    else content
  let sanitized := glueComparisonOps initialContent
  let toks := preProcess sanitized
  if toks.isEmpty then .ok ⟨schemaVersion, sanitized, none⟩
  else do
    let root ← parseSelectorTree (sanitized.length + 1) toks
    .ok ⟨schemaVersion, sanitized, some root⟩

/-! ## Claims C2 and C8: selector evaluation -/

/-- Free identifiers of a selector parse tree: the strings evaluated as
build-environment variable presence checks by `_eval_node`. -/
def SelNode.freeVars : SelNode → List String
  | .mk v l r =>
    (match v with
      | .freeStr s => [s]
      | _ => []) ++
    (match l with
      | none => []
      | some n => n.freeVars) ++
    (match r with
      | none => []
      | some n => n.freeVars)

/-- Free identifiers of a whole selector. -/
def SelectorParser.freeVars (p : SelectorParser) : List String :=
  match p.root with
  | none => []
  | some t => t.freeVars

/-- Evaluation of a selector tree only depends on the query's platform and on
the membership of the tree's free identifiers among the build-environment
variables. -/
theorem evalSelNode_congr (q1 q2 : SelectorQuery) (hp : q1.platform = q2.platform) :
    ∀ t : SelNode,
      (∀ s ∈ t.freeVars, q1.buildEnvVars.contains s = q2.buildEnvVars.contains s) →
      evalSelNode q1 t = evalSelNode q2 t
  | .mk v l r => by
    intro henv
    match v with
    | .platformAlias a =>
      show (match q1.platform with
            | some p => (getPlatformsByAlias a).contains p
            | none => false) =
          (match q2.platform with
            | some p => (getPlatformsByAlias a).contains p
            | none => false)
      rw [hp]
    | .arch a =>
      show (match q1.platform with
            | some p => (getPlatformsByArch a).contains p
            | none => false) =
          (match q2.platform with
            | some p => (getPlatformsByArch a).contains p
            | none => false)
      rw [hp]
    | .os o =>
      show (match q1.platform with
            | some p => (getPlatformsByOs o).contains p
            | none => false) =
          (match q2.platform with
            | some p => (getPlatformsByOs o).contains p
            | none => false)
      rw [hp]
    | .freeStr s =>
      exact henv s (by unfold SelNode.freeVars; simp)
    | .logicOp .NOT =>
      match l with
      | none => rfl
      | some n =>
        have hn := evalSelNode_congr q1 q2 hp n (fun s hs => henv s (by
          unfold SelNode.freeVars
          simp only [List.mem_append]
          tauto))
        show (!(evalSelNode q1 n)) = (!(evalSelNode q2 n))
        rw [hn]
    | .logicOp .AND =>
      match l, r with
      | none, none => rfl
      | none, some _ => rfl
      | some n, none =>
        have hn := evalSelNode_congr q1 q2 hp n (fun s hs => henv s (by
          unfold SelNode.freeVars
          simp only [List.mem_append]
          tauto))
        show (evalSelNode q1 n && false) = (evalSelNode q2 n && false)
        rw [hn]
      | some n, some m =>
        have hn := evalSelNode_congr q1 q2 hp n (fun s hs => henv s (by
          unfold SelNode.freeVars
          simp only [List.mem_append]
          tauto))
        have hm := evalSelNode_congr q1 q2 hp m (fun s hs => henv s (by
          unfold SelNode.freeVars
          simp only [List.mem_append]
          tauto))
        show (evalSelNode q1 n && evalSelNode q1 m) =
            (evalSelNode q2 n && evalSelNode q2 m)
        rw [hn, hm]
    | .logicOp .OR =>
      match l, r with
      | none, none => rfl
      | none, some m =>
        have hm := evalSelNode_congr q1 q2 hp m (fun s hs => henv s (by
          unfold SelNode.freeVars
          simp only [List.mem_append]
          tauto))
        show (false || evalSelNode q1 m) = (false || evalSelNode q2 m)
        rw [hm]
      | some n, none =>
        have hn := evalSelNode_congr q1 q2 hp n (fun s hs => henv s (by
          unfold SelNode.freeVars
          simp only [List.mem_append]
          tauto))
        show (evalSelNode q1 n || false) = (evalSelNode q2 n || false)
        rw [hn]
      | some n, some m =>
        have hn := evalSelNode_congr q1 q2 hp n (fun s hs => henv s (by
          unfold SelNode.freeVars
          simp only [List.mem_append]
          tauto))
        have hm := evalSelNode_congr q1 q2 hp m (fun s hs => henv s (by
          unfold SelNode.freeVars
          simp only [List.mem_append]
          tauto))
        show (evalSelNode q1 n || evalSelNode q1 m) =
            (evalSelNode q2 n || evalSelNode q2 m)
        rw [hn, hm]
termination_by t => sizeOf t
decreasing_by all_goals (simp_wf <;> omega)

/-- C2: for every `SelectorQuery`, `does_selector_apply` returns `True` when the
selector expression is empty (the parser holds no parsed atoms, `_root is None`),
and for every non-empty selector it returns `False` when the query carries no
platform. -/
theorem crm_C2_selector_boundary :
    (∀ (p : SelectorParser) (q : SelectorQuery),
        p.root = none → p.doesSelectorApply q = true) ∧
    (∀ (p : SelectorParser) (q : SelectorQuery) (t : SelNode),
        p.root = some t → q.platform = none → p.doesSelectorApply q = false) := by
  constructor
  · intro p q h
    simp [SelectorParser.doesSelectorApply, h]
  · intro p q t h hq
    simp [SelectorParser.doesSelectorApply, h, hq]

/-- Constructing the parser on the empty V0 selector text yields no parse tree. -/
theorem selectorParser_construct_empty :
    SelectorParser.construct "[]" .V0 = .ok ⟨.V0, "", none⟩ := by
  rfl

/-- Constructing the parser on the V0 selector `[linux]` yields a single
operating-system atom. -/
theorem selectorParser_construct_linux :
    SelectorParser.construct "[linux]" .V0 =
      .ok ⟨.V0, "linux", some (SelNode.mk (.os .LINUX) none none)⟩ := by decide

/-- Witness for C2 at two concrete selectors: the parser state produced by
`SelectorParser.construct "[]"` (no atoms) applies under an arbitrary query,
and the one produced by `SelectorParser.construct "[linux]"` does not apply
under a query with no platform. -/
theorem crm_C2_selector_boundary_witness :
    (SelectorParser.mk .V0 "" none).doesSelectorApply ⟨some .LINUX_64, ["python"]⟩ = true ∧
    (SelectorParser.mk .V0 "linux"
        (some (SelNode.mk (.os .LINUX) none none))).doesSelectorApply ⟨none, ["python"]⟩ = false :=
  ⟨crm_C2_selector_boundary.1 _ _ rfl, crm_C2_selector_boundary.2 _ _ _ rfl rfl⟩

/-- C8: selector evaluation is deterministic and noninterfering. For every
selector `s` and queries `q1`, `q2` that agree on the platform and on the
membership of every identifier appearing in `s` among the build-environment
variables, `does_selector_apply(s, q1) = does_selector_apply(s, q2)`; adding or
changing an environment variable not named in `s` never changes the result. -/
theorem crm_C8_selector_noninterference (p : SelectorParser) (q1 q2 : SelectorQuery)
    (hp : q1.platform = q2.platform)
    (henv : ∀ s ∈ p.freeVars, q1.buildEnvVars.contains s = q2.buildEnvVars.contains s) :
    p.doesSelectorApply q1 = p.doesSelectorApply q2 := by
  unfold SelectorParser.doesSelectorApply
  match hroot : p.root with
  | none => rfl
  | some t =>
    rw [hp]
    match q2.platform with
    | none => rfl
    | some _ =>
      exact evalSelNode_congr q1 q2 hp t (by
        intro s hs
        exact henv s (by simp [SelectorParser.freeVars, hroot, hs]))

/-- Witness for C8: evaluating the selector `[linux and py37]` under two
queries that differ only in an unrelated environment variable (`zlib`). -/
theorem crm_C8_selector_noninterference_witness :
    (SelectorParser.mk .V0 "linux and py37"
        (some (SelNode.mk (.logicOp .AND)
          (some (SelNode.mk (.os .LINUX) none none))
          (some (SelNode.mk (.freeStr "py37") none none))))).doesSelectorApply
        ⟨some .LINUX_64, ["py37"]⟩ =
      (SelectorParser.mk .V0 "linux and py37"
        (some (SelNode.mk (.logicOp .AND)
          (some (SelNode.mk (.os .LINUX) none none))
          (some (SelNode.mk (.freeStr "py37") none none))))).doesSelectorApply
        ⟨some .LINUX_64, ["py37", "zlib"]⟩ :=
  crm_C8_selector_noninterference _ _ _ rfl (by decide)

/-! ## V0 text formatter (parser/v0_recipe_formatter.py), claim C9 -/

/-- Number of spaces per indentation level (parser/types.py, `TAB_SPACE_COUNT`). -/
def TAB_SPACE_COUNT : Nat := 2

/-- Whitespace characters stripped by Python's `str.lstrip()`. -/
def isPyWhitespace (c : Char) : Bool :=
  c == ' ' || c == '\t' || c == '\n' || c == '\x0B' || c == '\x0C' || c == '\r'

/-- Translation of Python's `line.lstrip()`. -/
def pyLstrip (s : String) : String :=
  String.mk (s.data.dropWhile isPyWhitespace)

/-- Translation of `num_tab_spaces` (parser/_utils.py): the number of spaces at
the start of the string. -/
def numTabSpaces (s : String) : Nat :=
  (s.data.takeWhile (· == ' ')).length

/-- Parent-stack update at the top of the loop body of
`V0RecipeFormatter._fix_excessive_indentation` (v0_recipe_formatter.py): push
`prev_line` on an indent increase, pop on a decrease (bailing out when the
stack is already empty), keep the stack otherwise. -/
def fixStackUpdate (stack : List String) (prevCntr curCntr : Int) (prevLine : String) :
    Option (List String) :=
  if curCntr > prevCntr then some (prevLine :: stack)
  else if curCntr < prevCntr then
    match stack with
    | [] => none
    | _ :: tl => some tl
  else some stack

/-- Line rewrite of the loop body (v0_recipe_formatter.py): when the current
indentation exceeds `num_tab_spaces(last_parent) + TAB_SPACE_COUNT`, the line
is re-written with exactly that indentation; otherwise it is kept. -/
def fixLineClamp (line lastParent : String) : String :=
  let correctIndent := numTabSpaces lastParent + TAB_SPACE_COUNT
  if (numTabSpaces line : Int) > (correctIndent : Int) then
    String.mk (List.replicate correctIndent ' ' ++ (pyLstrip line).data)
  else line

/-- Loop of `V0RecipeFormatter._fix_excessive_indentation`
(v0_recipe_formatter.py). The loop state is the remaining lines, the parent
stack, `prev_cntr` (an integer, initially `-TAB_SPACE_COUNT`) and `prev_line`.
Returning `none` models the two restore-and-return-False paths (the formatter
puts the original lines back); `some out` is the written line list. Blank
lines are skipped unmodified. -/
def fixPassGo : List String → List String → Int → String → Option (List String)
  | [], _, _, _ => some []
  | line :: rest, stack, prevCntr, prevLine =>
    if pyLstrip line == "" then
      (fixPassGo rest stack prevCntr prevLine).map (line :: ·)
    else
      match fixStackUpdate stack prevCntr (numTabSpaces line : Int) prevLine with
      | none => none
      | some [] => none
      | some (lastParent :: stackRest) =>
        (fixPassGo rest (lastParent :: stackRest) (numTabSpaces line : Int) line).map
          (fixLineClamp line lastParent :: ·)

/-- One call of `V0RecipeFormatter._fix_excessive_indentation`
(v0_recipe_formatter.py): `none` when the pass bailed out and restored the
original lines, otherwise the new line list. -/
def fixExcessivePass (lines : List String) : Option (List String) :=
  fixPassGo lines [] (-(TAB_SPACE_COUNT : Int)) ""

/-- One call of `_fix_excessive_indentation` together with its boolean result
(`self._lines != old_lines`): the new line state and whether the pass reported
a change. -/
def fixStep (lines : List String) : List String × Bool :=
  match fixExcessivePass lines with
  | none => (lines, false)
  | some new => (new, new != lines)

/-- Iterate of the loop body of `V0RecipeFormatter.fix_excessive_indentation`
(v0_recipe_formatter.py): apply the pass a given number of times. -/
def fixIterate : Nat → List String → List String
  | 0, lines => lines
  | n + 1, lines => fixIterate n (fixStep lines).1

/-- Total indentation of a line list: the termination measure of the fixpoint
loop. A changing pass strictly lowers it. -/
def indentSum (lines : List String) : Nat :=
  (lines.map numTabSpaces).sum

/-- Relation between an input line and the corresponding output line of one
pass: indentation never grows, and it strictly shrinks on any line the pass
rewrote. -/
def lineRel (a b : String) : Prop :=
  numTabSpaces b ≤ numTabSpaces a ∧ (b ≠ a → numTabSpaces b < numTabSpaces a)

theorem takeWhile_spaces_replicate_append (n : Nat) (l : List Char) :
    List.takeWhile (· == ' ') (List.replicate n ' ' ++ l) =
      List.replicate n ' ' ++ List.takeWhile (· == ' ') l := by
  induction n with
  | zero => simp
  | succ k ih => simp [List.replicate_succ, List.takeWhile, ih]

/-- Indentation of a clamped line: the leading clean content starts with a
non-whitespace character, so the new indentation is exactly `correctIndent`. -/
theorem numTabSpaces_clamped (correctIndent : Nat) (line : String)
    (hne : pyLstrip line ≠ "") :
    numTabSpaces (String.mk (List.replicate correctIndent ' ' ++ (pyLstrip line).data)) =
      correctIndent := by
  unfold numTabSpaces
  rw [takeWhile_spaces_replicate_append]
  have hdrop : (pyLstrip line).data = line.data.dropWhile isPyWhitespace := rfl
  have : List.takeWhile (· == ' ') (pyLstrip line).data = [] := by
    rw [hdrop]
    match hd : line.data.dropWhile isPyWhitespace with
    | [] => rfl
    | c :: tl =>
      have hc : ¬ isPyWhitespace c := by
        have := List.head_dropWhile_not isPyWhitespace (l := line.data)
        rw [hd] at this
        simpa using this (by simp)
      have hcs : (c == ' ') = false := by
        cases hcc : c == ' ' with
        | false => rfl
        | true =>
          exact absurd (by simp [isPyWhitespace, hcc]) hc
      simp [List.takeWhile, hcs]
  rw [this]
  simp

/-- One rewritten line keeps or strictly lowers its indentation. -/
theorem fixLineClamp_rel (line lastParent : String) (hne : pyLstrip line ≠ "") :
    lineRel line (fixLineClamp line lastParent) := by
  unfold fixLineClamp lineRel
  by_cases hclamp :
      (numTabSpaces line : Int) > ((numTabSpaces lastParent + TAB_SPACE_COUNT : Nat) : Int)
  · rw [if_pos hclamp]
    have heq := numTabSpaces_clamped (numTabSpaces lastParent + TAB_SPACE_COUNT) line hne
    have hlt : numTabSpaces lastParent + TAB_SPACE_COUNT < numTabSpaces line := by
      exact_mod_cast hclamp
    refine ⟨?_, ?_⟩
    · rw [heq]; exact le_of_lt hlt
    · intro _; rw [heq]; exact hlt
  · rw [if_neg hclamp]
    exact ⟨le_refl _, fun hne2 => absurd rfl hne2⟩

/-- Each line written by one pass of the indentation fixer keeps or strictly
lowers its indentation. -/
theorem fixPassGo_rel :
    ∀ (lines : List String) (stack : List String) (prevCntr : Int) (prevLine : String)
      (out : List String),
      fixPassGo lines stack prevCntr prevLine = some out →
      List.Forall₂ lineRel lines out := by
  intro lines
  induction lines with
  | nil =>
    intro stack prevCntr prevLine out h
    simp only [fixPassGo] at h
    cases h
    exact List.Forall₂.nil
  | cons line rest ih =>
    intro stack prevCntr prevLine out h
    simp only [fixPassGo] at h
    by_cases hblank : (pyLstrip line == "") = true
    · rw [if_pos hblank] at h
      obtain ⟨out2, hrec, hout⟩ := Option.map_eq_some'.mp h
      subst hout
      exact List.Forall₂.cons ⟨le_refl _, fun hne => absurd rfl hne⟩ (ih _ _ _ _ hrec)
    · rw [if_neg hblank] at h
      match hsu : fixStackUpdate stack prevCntr (numTabSpaces line : Int) prevLine with
      | none =>
        rw [hsu] at h
        exact Option.noConfusion h
      | some [] =>
        rw [hsu] at h
        exact Option.noConfusion h
      | some (lastParent :: stackRest) =>
        rw [hsu] at h
        obtain ⟨out2, hrec, hout⟩ := Option.map_eq_some'.mp h
        subst hout
        have hne : pyLstrip line ≠ "" := by
          intro hh
          exact hblank (by simp [hh])
        exact List.Forall₂.cons (fixLineClamp_rel line lastParent hne) (ih _ _ _ _ hrec)

/-- Pointwise related line lists have a smaller-or-equal total indentation. -/
theorem indentSum_le_of_rel :
    ∀ {lines out : List String}, List.Forall₂ lineRel lines out →
      indentSum out ≤ indentSum lines := by
  intro lines out h
  induction h with
  | nil => simp [indentSum]
  | cons hab _ ih =>
    simp only [indentSum, List.map_cons, List.sum_cons]
    exact Nat.add_le_add hab.1 ih

/-- Pointwise related and different line lists have a strictly smaller total
indentation. -/
theorem indentSum_lt_of_rel_ne :
    ∀ {lines out : List String}, List.Forall₂ lineRel lines out → out ≠ lines →
      indentSum out < indentSum lines := by
  intro lines out h
  induction h with
  | nil => intro hne; exact absurd rfl hne
  | @cons a b as bs hab htail ih =>
    intro hne
    simp only [indentSum, List.map_cons, List.sum_cons]
    by_cases hhead : b = a
    · subst hhead
      have hbs : bs ≠ as := by
        intro hh
        exact hne (by rw [hh])
      exact Nat.add_lt_add_left (ih hbs) _
    · exact Nat.add_lt_add_of_lt_of_le (hab.2 hhead) (indentSum_le_of_rel htail)

/-- Unfolding equation for `fixStep` when the pass succeeds. -/
theorem fixStep_eq_of_pass {lines new : List String}
    (hpass : fixExcessivePass lines = some new) :
    fixStep lines = (new, new != lines) := by
  unfold fixStep
  rw [hpass]

/-- A pass that reports a change strictly lowers the total indentation. -/
theorem fixStep_measure (lines : List String) :
    (fixStep lines).2 = true → indentSum (fixStep lines).1 < indentSum lines := by
  intro h
  match hpass : fixExcessivePass lines with
  | none =>
    rw [show fixStep lines = (lines, false) from by unfold fixStep; rw [hpass]] at h
    cases h
  | some new =>
    rw [fixStep_eq_of_pass hpass] at h ⊢
    have hne : new ≠ lines := by simpa using h
    exact indentSum_lt_of_rel_ne (fixPassGo_rel lines _ _ _ _ hpass) hne

/-- C9: the excessive-indentation fixer terminates on every input.
`V0RecipeFormatter.fix_excessive_indentation()` repeatedly applies
`_fix_excessive_indentation` until a pass reports no change; for every line
list some finite number of passes reaches such a fixpoint (each changing pass
strictly lowers the total indentation, and a pass that cannot reconcile a line
restores the original lines and reports no change). -/
theorem crm_C9_formatter_termination (lines : List String) :
    ∃ n : Nat, (fixStep (fixIterate n lines)).2 = false := by
  have main : ∀ (k : Nat) (l : List String), indentSum l ≤ k →
      ∃ n : Nat, (fixStep (fixIterate n l)).2 = false := by
    intro k
    induction k with
    | zero =>
      intro l hl
      match hstep : (fixStep l).2 with
      | false => exact ⟨0, hstep⟩
      | true =>
        have := fixStep_measure l hstep
        omega
    | succ k ih =>
      intro l hl
      match hstep : (fixStep l).2 with
      | false => exact ⟨0, hstep⟩
      | true =>
        have hlt := fixStep_measure l hstep
        obtain ⟨n, hn⟩ := ih (fixStep l).1 (by omega)
        exact ⟨n + 1, by simpa [fixIterate] using hn⟩
  exact main (indentSum lines) lines (le_refl _)

/-! ## Recipe document model and JSON-Patch operations (claims C3 and C6)

The `Node` parse tree, its traversal and the JSON-Patch layer live in
`parser/_node.py`, `parser/_traverse.py` and `parser/recipe_parser.py`, which
are absent from `src/`; they are modelled from the specification here
(sections 3 and 4.5). -/

/-- Modelled from the spec: the scalar and collection values a recipe document
stores (section 3, `NodeValue`; `types.py`, `JsonType`). The `float`
constructor carries the literal text: no verified operation performs float
arithmetic, a float only matters as a value that is neither an int nor a
bool. -/
inductive Json where
  | null
  | bool (b : Bool)
  | int (n : Int)
  | float (lit : String)
  | str (s : String)
  | arr (xs : List Json)
  | obj (fields : List (String × Json))

/-- First-match lookup in an ordered association list (the mapping children of
a node, in document order). -/
def lookupAssoc : List (String × Json) → String → Option Json
  | [], _ => none
  | (k, v) :: rest, key => if k == key then some v else lookupAssoc rest key

/-- Key update in an ordered association list: replace in place when the key
exists, append otherwise. -/
def setAssoc : List (String × Json) → String → Json → List (String × Json)
  | [], key, v => [(key, v)]
  | (k, w) :: rest, key, v =>
    if k == key then (k, v) :: rest else (k, w) :: setAssoc rest key v

/-- Modelled from the spec: a decimal path component refers to a list index
(section 3, "Index components are decimal integers referring to list
position"). -/
def parsePathIndex (s : String) : Option Nat :=
  if s != "" && s.data.all Char.isDigit then
    some (s.data.foldl (fun acc c => acc * 10 + (c.toNat - 48)) 0)
  else none

/-- Modelled from the spec: value lookup by path (section 4.5, `get_value` /
`contains_value`; paths are handled as stacks of components, section 3).
Paths are given directly as component lists: `/build/number` is
`["build", "number"]`. -/
def Json.getAtPath : Json → List String → Option Json
  | t, [] => some t
  | .obj fields, comp :: rest =>
    match lookupAssoc fields comp with
    | some v => v.getAtPath rest
    | none => none
  | .arr xs, comp :: rest =>
    match parsePathIndex comp with
    | some i =>
      match xs.get? i with
      | some v => v.getAtPath rest
      | none => none
    | none => none
  | _, _ :: _ => none

/-- Modelled from the spec: the JSON-Patch `replace` operation (section 4.5):
the target path must exist and its value is swapped. -/
def patchReplace : Json → List String → Json → Option Json
  | _, [], v => some v
  | .obj fields, comp :: rest, v =>
    match lookupAssoc fields comp with
    | some child =>
      match patchReplace child rest v with
      | some child2 => some (.obj (setAssoc fields comp child2))
      | none => none
    | none => none
  | .arr xs, comp :: rest, v =>
    match parsePathIndex comp with
    | some i =>
      match xs.get? i with
      | some child =>
        match patchReplace child rest v with
        | some child2 => some (.arr (xs.set i child2))
        | none => none
      | none => none
    | none => none
  | _, _ :: _, _ => none

/-- Modelled from the spec: the JSON-Patch `add` operation (section 4.5): the
last component may create a new mapping key (an existing key is overwritten,
per RFC 6902) or insert into a list at an index within `[0, len]`; "a patch
that would create more than one new level of path depth fails", so every
other component must already exist. -/
def patchAdd : Json → List String → Json → Option Json
  | _, [], v => some v
  | .obj fields, [k], v => some (.obj (setAssoc fields k v))
  | .arr xs, [k], v =>
    match parsePathIndex k with
    | some i => if i ≤ xs.length then some (.arr (xs.insertIdx i v)) else none
    | none => none
  | .obj fields, comp :: rest, v =>
    match lookupAssoc fields comp with
    | some child =>
      match patchAdd child rest v with
      | some child2 => some (.obj (setAssoc fields comp child2))
      | none => none
    | none => none
  | .arr xs, comp :: rest, v =>
    match parsePathIndex comp with
    | some i =>
      match xs.get? i with
      | some child =>
        match patchAdd child rest v with
        | some child2 => some (.arr (xs.set i child2))
        | none => none
      | none => none
    | none => none
  | _, _ :: _, _ => none

/-! ## Version bumper (ops/version_bumper.py), claims C3 and C6 -/

/-- Errors of the version bumper (ops/exceptions.py):
`VersionBumperInvalidState` and `VersionBumperPatchError`. -/
inductive BumperErr where
  | invalidState
  | patchError
deriving DecidableEq, Repr

/-- State of the `VersionBumper`'s recipe parser that the verified operations
read and write: the parse tree and the variable table. The table maps each
name to one value; the V0 multiple-definition idiom never arises in the
operations verified here (`recipe_parser.py` with the table editing code is
absent from `src/`; the spec, section 3, describes the table). Disk I/O
(`commit_changes`) is outside the model. -/
structure RecipeState where
  tree : Json
  vars : List (String × Json)

/-- Translation of Python's `isinstance(x, int)` on a recipe value: Python
booleans are a subclass of `int`, so they pass the check
(version_bumper.py line 277 relies on `isinstance`). -/
def Json.isInstInt : Json → Bool
  | .int _ => true
  | .bool _ => true
  | _ => false

/-- Translation of Python's `og_build_number + 1` for values passing
`isinstance(x, int)`: a bool is coerced to 0 or 1. -/
def Json.pyIntAdd1 : Json → Json
  | .int n => .int (n + 1)
  | .bool b => .int ((if b then 1 else 0) + 1)
  | j => j

/-- Recipe path `/build/number` (version_bumper.py, `_RecipePaths.BUILD_NUM`). -/
def buildNumPath : List String := ["build", "number"]

/-- Recipe path `/package/version` (version_bumper.py, `_RecipePaths.VERSION`). -/
def versionPath : List String := ["package", "version"]

/-- Translation of `VersionBumper.update_build_num` (version_bumper.py):
reject a negative explicit build number; require `/build` to exist; when
auto-incrementing and `/build/number` exists, require `isinstance(x, int)` and
replace the value with `x + 1`; otherwise add `/build/number` with the
explicit number or the default 0. A failing patch raises
`VersionBumperPatchError`. The `commit-on-failure` side effect is disk I/O and
outside the model. -/
def updateBuildNum (st : RecipeState) (buildNum : Option Int) : Except BumperErr RecipeState :=
  if (match buildNum with
      | some n => decide (n < 0)
      | none => false) then
    .error .invalidState
  else
    match st.tree.getAtPath ["build"] with
    | none => .error .invalidState
    | some _ =>
      if buildNum.isNone && (st.tree.getAtPath buildNumPath).isSome then
        match st.tree.getAtPath buildNumPath with
        | some og =>
          if !og.isInstInt then .error .invalidState
          else
            match patchReplace st.tree buildNumPath og.pyIntAdd1 with
            | some t2 => .ok { st with tree := t2 }
            | none => .error .patchError
        | none => .error .patchError
      else
        match patchAdd st.tree buildNumPath
            (.int (match buildNum with
              | none => 0
              | some n => n)) with
        | some t2 => .ok { st with tree := t2 }
        | none => .error .patchError

/-! ## Claim C3: update_build_num -/

theorem lookupAssoc_setAssoc_self (fields : List (String × Json)) (k : String) (v : Json) :
    lookupAssoc (setAssoc fields k v) k = some v := by
  induction fields with
  | nil => simp [setAssoc, lookupAssoc]
  | cons head rest ih =>
    obtain ⟨k1, v1⟩ := head
    by_cases hk : (k1 == k) = true
    · simp [setAssoc, lookupAssoc, hk]
    · simp only [setAssoc, lookupAssoc, hk, if_false, Bool.false_eq_true]
      exact ih

/-- Inversion of a path lookup whose first component is not a list index: the
document must be a mapping holding that key. -/
theorem getAtPath_cons_obj {t : Json} {c : String} {rest : List String} {v : Json}
    (hidx : parsePathIndex c = none)
    (h : t.getAtPath (c :: rest) = some v) :
    ∃ fields child, t = .obj fields ∧ lookupAssoc fields c = some child ∧
      child.getAtPath rest = some v := by
  match t with
  | .null | .bool _ | .int _ | .float _ | .str _ => simp [Json.getAtPath] at h
  | .arr xs => simp [Json.getAtPath, hidx] at h
  | .obj fields =>
    simp only [Json.getAtPath] at h
    match hlk : lookupAssoc fields c with
    | some child =>
      rw [hlk] at h
      exact ⟨fields, child, rfl, hlk, h⟩
    | none => rw [hlk] at h; cases h

/-- The components of the verified fixed paths are not list indices. -/
theorem parsePathIndex_build : parsePathIndex "build" = none := by decide

theorem parsePathIndex_number : parsePathIndex "number" = none := by decide

/-- Shape inversion for a recipe whose `/build/number` path resolves. -/
theorem getAtPath_buildNum_shape {t : Json} {v : Json}
    (h : t.getAtPath buildNumPath = some v) :
    ∃ f bf, t = .obj f ∧ lookupAssoc f "build" = some (.obj bf) ∧
      lookupAssoc bf "number" = some v := by
  obtain ⟨f, child, ht, hlk, hchild⟩ := getAtPath_cons_obj parsePathIndex_build h
  obtain ⟨bf, child2, hchild_eq, hlk2, hchild2⟩ :=
    getAtPath_cons_obj parsePathIndex_number hchild
  simp only [Json.getAtPath] at hchild2
  cases hchild2
  exact ⟨f, bf, ht, hchild_eq ▸ hlk, hlk2⟩

/-- Two-level `replace` at `/build/number` on a mapping-shaped recipe. -/
theorem patchReplace_buildNum {f bf : List (String × Json)} {og v : Json}
    (hb : lookupAssoc f "build" = some (.obj bf))
    (hn : lookupAssoc bf "number" = some og) :
    patchReplace (.obj f) buildNumPath v =
      some (.obj (setAssoc f "build" (.obj (setAssoc bf "number" v)))) := by
  simp [buildNumPath, patchReplace, hb, hn]

/-- Two-level `add` at `/build/number` on a mapping-shaped recipe. -/
theorem patchAdd_buildNum {f bf : List (String × Json)} {v : Json}
    (hb : lookupAssoc f "build" = some (.obj bf)) :
    patchAdd (.obj f) buildNumPath v =
      some (.obj (setAssoc f "build" (.obj (setAssoc bf "number" v)))) := by
  simp [buildNumPath, patchAdd, hb]

/-- Lookup at `/build/number` after the two-level rewrite. -/
theorem getAtPath_buildNum_set (f bf : List (String × Json)) (v : Json) :
    Json.getAtPath (.obj (setAssoc f "build" (.obj (setAssoc bf "number" v))))
      buildNumPath = some v := by
  simp [buildNumPath, Json.getAtPath, lookupAssoc_setAssoc_self]

/-- A resolving `/build/number` forces `/build` to resolve. -/
theorem getAtPath_build_of_buildNum {t v : Json}
    (h : t.getAtPath buildNumPath = some v) :
    ∃ bf, t.getAtPath ["build"] = some (.obj bf) := by
  obtain ⟨f, bf, ht, hb, _⟩ := getAtPath_buildNum_shape h
  subst ht
  exact ⟨bf, by simp [Json.getAtPath, hb]⟩

/-- Counterexample to C3 as frozen: a recipe whose `/build/number` holds the
boolean `true` (not an integer in the recipe data model of spec section 9)
does not raise `VersionBumperInvalidState`; Python's `isinstance(True, int)`
succeeds and `update_build_num(None)` replaces the value with `True + 1 = 2`. -/
theorem crm_C3_counterexample :
    updateBuildNum ⟨.obj [("build", .obj [("number", .bool true)])], []⟩ none =
      .ok ⟨.obj [("build", .obj [("number", .int 2)])], []⟩ ∧
    updateBuildNum ⟨.obj [("build", .obj [("number", .bool true)])], []⟩ none ≠
      .error .invalidState := by
  constructor
  · rfl
  · intro h
    have h1 : updateBuildNum ⟨.obj [("build", .obj [("number", .bool true)])], []⟩ none =
        .ok ⟨.obj [("build", .obj [("number", .int 2)])], []⟩ := rfl
    rw [h1] at h
    exact Except.noConfusion h

/-- C3 (amended): `update_build_num(None)` on a recipe whose `/build/number`
holds an integer `k` replaces the value with `k + 1`; if `/build` exists but
`/build/number` is missing it adds `/build/number = 0`; with an integer
`n >= 0` it writes `n`; a negative `n` or a missing `/build` section raises
`VersionBumperInvalidState`, and so does auto-increment on an existing build
number that is neither an int nor a bool — a boolean passes Python's
`isinstance(x, int)` check and is replaced by its integer value plus one. -/
theorem crm_C3_update_build_num :
    (∀ (st : RecipeState) (n : Int), n < 0 →
        updateBuildNum st (some n) = .error .invalidState) ∧
    (∀ (st : RecipeState) (bn : Option Int), st.tree.getAtPath ["build"] = none →
        updateBuildNum st bn = .error .invalidState) ∧
    (∀ (st : RecipeState) (og : Json), st.tree.getAtPath buildNumPath = some og →
        og.isInstInt = false → updateBuildNum st none = .error .invalidState) ∧
    (∀ (st : RecipeState) (k : Int), st.tree.getAtPath buildNumPath = some (.int k) →
        ∃ t2, updateBuildNum st none = .ok ⟨t2, st.vars⟩ ∧
          t2.getAtPath buildNumPath = some (.int (k + 1))) ∧
    (∀ (st : RecipeState) (b : Bool), st.tree.getAtPath buildNumPath = some (.bool b) →
        ∃ t2, updateBuildNum st none = .ok ⟨t2, st.vars⟩ ∧
          t2.getAtPath buildNumPath = some (.int ((if b then 1 else 0) + 1))) ∧
    (∀ (st : RecipeState) (bf : List (String × Json)),
        st.tree.getAtPath ["build"] = some (.obj bf) →
        st.tree.getAtPath buildNumPath = none →
        ∃ t2, updateBuildNum st none = .ok ⟨t2, st.vars⟩ ∧
          t2.getAtPath buildNumPath = some (.int 0)) ∧
    (∀ (st : RecipeState) (n : Int) (bf : List (String × Json)), 0 ≤ n →
        st.tree.getAtPath ["build"] = some (.obj bf) →
        ∃ t2, updateBuildNum st (some n) = .ok ⟨t2, st.vars⟩ ∧
          t2.getAtPath buildNumPath = some (.int n)) := by
  refine ⟨?_, ?_, ?_, ?_, ?_, ?_, ?_⟩
  · intro st n hn
    unfold updateBuildNum
    rw [if_pos (by simpa using hn)]
  · intro ⟨tr, vs⟩ bn hb
    simp only at hb
    match bn with
    | none => simp [updateBuildNum, hb]
    | some n =>
      by_cases hn : n < 0
      · unfold updateBuildNum
        rw [if_pos (by simpa using hn)]
      · simp [updateBuildNum, hb, hn]
  · intro ⟨tr, vs⟩ og hog hint
    simp only at hog
    obtain ⟨bf, hb⟩ := getAtPath_build_of_buildNum hog
    simp [updateBuildNum, hb, hog, hint]
  · intro ⟨tr, vs⟩ k hk
    simp only at hk
    obtain ⟨f, bf, ht, hb, hn⟩ := getAtPath_buildNum_shape hk
    subst ht
    obtain ⟨bf2, hb2⟩ := getAtPath_build_of_buildNum hk
    have hrep : patchReplace (Json.obj f) buildNumPath (Json.int (k + 1)) =
        some (.obj (setAssoc f "build" (.obj (setAssoc bf "number" (.int (k + 1)))))) :=
      patchReplace_buildNum hb hn
    refine ⟨.obj (setAssoc f "build" (.obj (setAssoc bf "number" (.int (k + 1))))),
      ?_, getAtPath_buildNum_set f bf _⟩
    simp [updateBuildNum, hb2, hk, Json.isInstInt, Json.pyIntAdd1, hrep]
  · intro ⟨tr, vs⟩ b hkb
    simp only at hkb
    obtain ⟨f, bf, ht, hb, hn⟩ := getAtPath_buildNum_shape hkb
    subst ht
    obtain ⟨bf2, hb2⟩ := getAtPath_build_of_buildNum hkb
    have hrep : patchReplace (Json.obj f) buildNumPath (Json.int ((if b then 1 else 0) + 1)) =
        some (.obj (setAssoc f "build"
          (.obj (setAssoc bf "number" (.int ((if b then 1 else 0) + 1)))))) :=
      patchReplace_buildNum hb hn
    refine ⟨.obj (setAssoc f "build"
        (.obj (setAssoc bf "number" (.int ((if b then 1 else 0) + 1))))),
      ?_, getAtPath_buildNum_set f bf _⟩
    simp [updateBuildNum, hb2, hkb, Json.isInstInt, Json.pyIntAdd1, hrep]
  · intro ⟨tr, vs⟩ bf hb hmiss
    simp only at hb hmiss
    obtain ⟨f, child, ht, hlk, hchild⟩ :=
      getAtPath_cons_obj parsePathIndex_build hb
    simp only [Json.getAtPath] at hchild
    cases hchild
    subst ht
    refine ⟨.obj (setAssoc f "build" (.obj (setAssoc bf "number" (.int 0)))),
      ?_, getAtPath_buildNum_set f bf _⟩
    simp [updateBuildNum, hb, hmiss, patchAdd_buildNum hlk]
  · intro ⟨tr, vs⟩ n bf hn hb
    simp only at hb
    obtain ⟨f, child, ht, hlk, hchild⟩ :=
      getAtPath_cons_obj parsePathIndex_build hb
    simp only [Json.getAtPath] at hchild
    cases hchild
    subst ht
    refine ⟨.obj (setAssoc f "build" (.obj (setAssoc bf "number" (.int n)))),
      ?_, getAtPath_buildNum_set f bf _⟩
    have hneg : ¬ (n < 0) := by omega
    simp [updateBuildNum, hb, hneg, patchAdd_buildNum hlk]

/-- Witness for C3 at concrete recipes: increment 2 to 3; reject a negative
number; reject a missing `/build`; reject a string build number; default to 0
when `/build/number` is missing; write an explicit number. -/
theorem crm_C3_update_build_num_witness :
    (∃ t2, updateBuildNum ⟨.obj [("build", .obj [("number", .int 2)])], []⟩ none =
        .ok ⟨t2, []⟩ ∧ t2.getAtPath buildNumPath = some (.int 3)) ∧
    updateBuildNum ⟨.obj [("build", .obj [])], []⟩ (some (-1)) = .error .invalidState ∧
    updateBuildNum ⟨.obj [("package", .obj [])], []⟩ none = .error .invalidState ∧
    updateBuildNum ⟨.obj [("build", .obj [("number", .str "two")])], []⟩ none =
      .error .invalidState ∧
    (∃ t2, updateBuildNum ⟨.obj [("build", .obj [("skip", .bool false)])], []⟩ none =
        .ok ⟨t2, []⟩ ∧ t2.getAtPath buildNumPath = some (.int 0)) ∧
    (∃ t2, updateBuildNum ⟨.obj [("build", .obj [])], []⟩ (some 5) =
        .ok ⟨t2, []⟩ ∧ t2.getAtPath buildNumPath = some (.int 5)) :=
  ⟨crm_C3_update_build_num.2.2.2.1 _ 2 rfl,
   crm_C3_update_build_num.1 _ (-1) (by decide),
   crm_C3_update_build_num.2.1 _ none rfl,
   crm_C3_update_build_num.2.2.1 _ (.str "two") rfl rfl,
   crm_C3_update_build_num.2.2.2.2.2.1 _ [("skip", .bool false)] rfl rfl,
   crm_C3_update_build_num.2.2.2.2.2.2 _ 5 [] (by decide) rfl⟩

/-! ## Claim C6: update_version -/

/-- Scan for the closing double brace of a template block, returning the text
inside and the text after the block. -/
def splitAtCloseBrace : List Char → Option (List Char × List Char)
  | [] => none
  | '\x7d' :: '\x7d' :: rest => some ([], rest)
  | c :: rest =>
    match splitAtCloseBrace rest with
    | some (inner, after) => some (c :: inner, after)
    | none => none

/-- Translation of Python's `str.strip()`. -/
def pyStrip (s : List Char) : List Char :=
  ((s.dropWhile isPyWhitespace).reverse.dropWhile isPyWhitespace).reverse

/-- Python `str(value)` for the primitive values a substitution may produce
(recipe_reader.py, `_render_jinja_vars` accepts `PRIMITIVES_NO_NONE_TUPLE`);
`none` for values that are skipped. -/
def jsonPrimitiveStr : Json → Option String
  | .str s => some s
  | .int n => some (toString n)
  | .bool b => some (if b then "True" else "False")
  | .float lit => some lit
  | _ => none

/-- Modelled from the spec: template substitution (section 4.4). The sandbox
evaluation of full expressions is done by the external jinja2 library; the
model evaluates plain variable lookups (`{{ name }}`) and leaves every other
expression intact, as the spec prescribes for failing evaluations. One unit of
fuel is spent per consumed character. -/
def jinjaSubstGo (vars : List (String × Json)) : Nat → List Char → List Char
  | 0, cs => cs
  | _ + 1, [] => []
  | f + 1, '\x7b' :: '\x7b' :: rest =>
    (match splitAtCloseBrace rest with
      | some (inner, after) =>
        (match lookupAssoc vars (String.mk (pyStrip inner)) with
          | some v =>
            (match jsonPrimitiveStr v with
              | some s => s.data ++ jinjaSubstGo vars f after
              | none =>
                '\x7b' :: '\x7b' :: (inner ++ '\x7d' :: '\x7d' :: jinjaSubstGo vars f after))
          | none =>
            '\x7b' :: '\x7b' :: (inner ++ '\x7d' :: '\x7d' :: jinjaSubstGo vars f after))
      | none => '\x7b' :: '\x7b' :: rest)
  | f + 1, c :: rest => c :: jinjaSubstGo vars f rest
termination_by structural fuel => fuel

/-- Modelled from PyYaml (an external library): minimal scalar typing of a
rendered string (`yaml.load` at the end of `_render_jinja_vars`,
recipe_reader.py): empty and null spellings, booleans, decimal integers,
everything else a string. -/
def yamlScalarJson (s : String) : Json :=
  if s == "" || s == "null" || s == "~" then .null
  else if s == "true" || s == "True" then .bool true
  else if s == "false" || s == "False" then .bool false
  else
    match parsePathIndex s with
    | some n => .int (n : Int)
    | none => .str s

/-- Translation of `RecipeReader._render_jinja_vars` (recipe_reader.py) for V0
recipes: substitute recognisable template expressions, return the raw string
when unrendered JINJA remains at the front, otherwise re-type the scalar. -/
def renderJinjaVars (st : RecipeState) (s : String) : Json :=
  if s == "" then .str s
  else
    let s2 := String.mk (jinjaSubstGo st.vars (s.length + 1) s.data)
    match s2.data with
    | '\x7b' :: '\x7b' :: _ => .str s2
    | _ => yamlScalarJson s2

/-- Value of `get_value("/package/version", default=None, sub_vars=True)`
(version_bumper.py line 313): the rendered current version, `null` standing
for Python `None` when the path is missing. String leaves are rendered;
other values are returned as they are. -/
def currentRenderedVersion (st : RecipeState) : Json :=
  match st.tree.getAtPath versionPath with
  | none => .null
  | some (.str s) => renderJinjaVars st s
  | some v => v

/-- Python equality of a `str` against a recipe value: true only for an equal
string. -/
def pyStrEqJson (target : String) : Json → Bool
  | .str s => s == target
  | _ => false

/-- Value of `get_variable("version", None)` (version_bumper.py line 318):
`null` stands for Python `None` when the variable is undefined. -/
def oldVariableValue (st : RecipeState) (name : String) : Json :=
  match lookupAssoc st.vars name with
  | some v => v
  | none => .null

/-- Null check (`old_variable is not None`). -/
def Json.isNull : Json → Bool
  | .null => true
  | _ => false

/-- Substring search returning the text after the first occurrence. -/
def findSubstr (pat : List Char) : List Char → Option (List Char)
  | [] => if pat.isEmpty then some [] else none
  | c :: tl =>
    if pat.isPrefixOf (c :: tl) then some ((c :: tl).drop pat.length)
    else findSubstr pat tl

/-- Ordered-substring containment: each pattern occurs, in order. This is the
search semantics of a regex built by joining the patterns with `.*`, on
single-line strings. -/
def containsInOrder : List (List Char) → List Char → Bool
  | [], _ => true
  | pat :: pats, s =>
    match findSubstr pat s with
    | some rest => containsInOrder pats rest
    | none => false

/-- Translation of the per-node test of `RecipeReader.get_variable_references`
(recipe_reader.py): the V0 reference regex is `r"{{.*" + var + r".*}}"`,
searched inside a node's string value. -/
def jinjaV0RefMatch (varName : String) (s : String) : Bool :=
  containsInOrder [['\x7b', '\x7b'], varName.data, ['\x7d', '\x7d']] s.data

/-- Membership of one path in `get_variable_references(var)`
(recipe_reader.py): the source collects the paths of all nodes whose string
value matches the reference regex and the bumper tests membership of a single
fixed path; the tree walk lives in the absent `parser/_traverse.py`, so the
membership test is modelled as the per-path check. -/
def refMatchAt (st : RecipeState) (varName : String) (p : List String) : Bool :=
  (lookupAssoc st.vars varName).isSome &&
  (match st.tree.getAtPath p with
    | some (.str s) => jinjaV0RefMatch varName s
    | _ => false)

/-- Modelled from the spec: `set_variable(name, value)` (section 4.5;
`recipe_parser.py` is absent from `src/`): update the variable table, leaving
the parse tree untouched. -/
def setVariable (st : RecipeState) (name : String) (v : Json) : RecipeState :=
  { st with vars := setAssoc st.vars name v }

/-- Tail of `VersionBumper.update_version` (version_bumper.py lines 331-332):
patch `/package/version` directly, replacing when the path exists and adding
otherwise. -/
def updateVersionPatch (st : RecipeState) (targetVersion : String) :
    Except BumperErr RecipeState :=
  match (if (st.tree.getAtPath versionPath).isSome
         then patchReplace st.tree versionPath (.str targetVersion)
         else patchAdd st.tree versionPath (.str targetVersion)) with
  | some t2 => .ok { st with tree := t2 }
  | none => .error .patchError

/-- Translation of `VersionBumper.update_version` (version_bumper.py): reject
an empty target and a target equal to the rendered current version; when the
`version` variable is defined (and not `None`) and `/package/version` is among
its references, set the variable only; otherwise patch `/package/version`. -/
def updateVersion (st : RecipeState) (targetVersion : String) :
    Except BumperErr RecipeState :=
  if targetVersion == "" then .error .invalidState
  else if pyStrEqJson targetVersion (currentRenderedVersion st) then .error .invalidState
  else if !(oldVariableValue st "version").isNull then
    if refMatchAt st "version" versionPath then
      .ok (setVariable st "version" (.str targetVersion))
    else updateVersionPatch st targetVersion
  else updateVersionPatch st targetVersion

/-- C6: frame property of `update_version`. When the template variable
`version` is defined and `/package/version` is among its references,
`update_version(new)` changes only the variable definition: the parse tree —
and with it the literal stored at `/package/version` — is unchanged, so the
rendered recipe still contains the original template reference at that
field. -/
theorem crm_C6_update_version_frame (st : RecipeState) (target : String)
    (hne : target ≠ "")
    (hdiff : pyStrEqJson target (currentRenderedVersion st) = false)
    (hvar : (oldVariableValue st "version").isNull = false)
    (href : refMatchAt st "version" versionPath = true) :
    updateVersion st target = .ok ⟨st.tree, setAssoc st.vars "version" (.str target)⟩ ∧
    (∀ st2, updateVersion st target = .ok st2 →
      st2.tree = st.tree ∧
      st2.tree.getAtPath versionPath = st.tree.getAtPath versionPath) := by
  have hmain : updateVersion st target =
      .ok ⟨st.tree, setAssoc st.vars "version" (.str target)⟩ := by
    unfold updateVersion
    rw [if_neg (by simpa using hne), if_neg (by simp [hdiff]),
      if_pos (by simp [hvar]), if_pos href]
    rfl
  refine ⟨hmain, ?_⟩
  intro st2 h2
  rw [hmain] at h2
  cases h2
  exact ⟨rfl, rfl⟩

/-- Witness for C6: a recipe defining `{% set version = "1.0.0" %}` whose
`/package/version` holds the template reference; bumping to `"1.2.3"` edits
the variable table only. -/
theorem crm_C6_update_version_frame_witness :
    updateVersion
        ⟨.obj [("package", .obj [("name", .str "demo"),
            ("version", .str "\x7b\x7b version \x7d\x7d")])],
         [("version", .str "1.0.0")]⟩ "1.2.3" =
      .ok ⟨.obj [("package", .obj [("name", .str "demo"),
            ("version", .str "\x7b\x7b version \x7d\x7d")])],
         [("version", .str "1.2.3")]⟩ ∧
    (∀ st2, updateVersion
        ⟨.obj [("package", .obj [("name", .str "demo"),
            ("version", .str "\x7b\x7b version \x7d\x7d")])],
         [("version", .str "1.0.0")]⟩ "1.2.3" = .ok st2 →
      st2.tree = Json.obj [("package", .obj [("name", .str "demo"),
            ("version", .str "\x7b\x7b version \x7d\x7d")])] ∧
      st2.tree.getAtPath versionPath =
        Json.getAtPath (.obj [("package", .obj [("name", .str "demo"),
            ("version", .str "\x7b\x7b version \x7d\x7d")])]) versionPath) :=
  crm_C6_update_version_frame _ _ (by decide) (by decide) (by decide) (by decide)

/-! ## CbcParser construction (parser/cbc_parser.py line 114), claim C5 -/

/-- Python `TypeError` raised during call-argument binding. -/
inductive CallErr where
  | typeError
deriving DecidableEq, Repr

/-- Python keyword-argument binding for a signature with plain named
parameters (no `*args`/`**kwargs`, which `RecipeReader.__init__` does not
declare): a keyword naming no parameter raises
`TypeError: unexpected keyword argument`; a keyword naming a parameter
already bound positionally raises `TypeError: multiple values`. -/
def pyBindKwArgs (params posBound : List String) : List String → Except CallErr Unit
  | [] => .ok ()
  | k :: rest =>
    if !(params.contains k) then .error .typeError
    else if posBound.contains k then .error .typeError
    else pyBindKwArgs params posBound rest

/-- The parameter names of `RecipeReader.__init__`
(parser/recipe_reader.py): `content` and `flags` (`self` omitted; bound to
the instance). -/
def recipeReaderInitParams : List String := ["content", "flags"]

/-- The binding performed by the `super().__init__(content,
floats_as_strings=True)` call in `CbcParser.__init__`
(parser/cbc_parser.py line 114): `content` is passed positionally and
`floats_as_strings` by keyword. The CBC text is irrelevant to the binding —
it happens before any parsing. -/
def cbcParserInit (content : String) : Except CallErr Unit :=
  let _ := content
  pyBindKwArgs recipeReaderInitParams ["content"] ["floats_as_strings"]

/-- C5 is a code bug in this snapshot: `RecipeReader.__init__` accepts only
`content` and `flags` (the flag exists as `RecipeReaderFlags.FLOATS_AS_STRINGS`
in parser/types.py), but `CbcParser.__init__` passes the keyword
`floats_as_strings`, so constructing a `CbcParser` raises `TypeError` for
every CBC text and never reaches the float-handling path. -/
theorem crm_C5_cbc_parser_init_type_error :
    recipeReaderInitParams.contains "floats_as_strings" = false ∧
    ∀ content : String, cbcParserInit content = Except.error CallErr.typeError :=
  ⟨by decide, fun _ => rfl⟩

/-! ## CBC parser and variant expander (parser/cbc_parser.py), claims C4 and C10 -/

mutual

/-- Decidable equality for recipe values, written by mutual structural
recursion (the derive handler does not support this nested inductive). -/
def Json.decEq : (x y : Json) → Decidable (x = y)
  | .null, .null => isTrue rfl
  | .bool a, .bool b =>
    match Bool.decEq a b with
    | isTrue h => isTrue (by rw [h])
    | isFalse h => isFalse (fun hh => h (by injection hh))
  | .int a, .int b =>
    match Int.decEq a b with
    | isTrue h => isTrue (by rw [h])
    | isFalse h => isFalse (fun hh => h (by injection hh))
  | .float a, .float b =>
    match String.decEq a b with
    | isTrue h => isTrue (by rw [h])
    | isFalse h => isFalse (fun hh => h (by injection hh))
  | .str a, .str b =>
    match String.decEq a b with
    | isTrue h => isTrue (by rw [h])
    | isFalse h => isFalse (fun hh => h (by injection hh))
  | .arr xs, .arr ys =>
    match Json.decEqList xs ys with
    | isTrue h => isTrue (by rw [h])
    | isFalse h => isFalse (fun hh => h (by injection hh))
  | .obj xs, .obj ys =>
    match Json.decEqObj xs ys with
    | isTrue h => isTrue (by rw [h])
    | isFalse h => isFalse (fun hh => h (by injection hh))
  | .null, .bool _ | .null, .int _ | .null, .float _ | .null, .str _
  | .null, .arr _ | .null, .obj _ => isFalse (fun hh => Json.noConfusion hh)
  | .bool _, .null | .bool _, .int _ | .bool _, .float _ | .bool _, .str _
  | .bool _, .arr _ | .bool _, .obj _ => isFalse (fun hh => Json.noConfusion hh)
  | .int _, .null | .int _, .bool _ | .int _, .float _ | .int _, .str _
  | .int _, .arr _ | .int _, .obj _ => isFalse (fun hh => Json.noConfusion hh)
  | .float _, .null | .float _, .bool _ | .float _, .int _ | .float _, .str _
  | .float _, .arr _ | .float _, .obj _ => isFalse (fun hh => Json.noConfusion hh)
  | .str _, .null | .str _, .bool _ | .str _, .int _ | .str _, .float _
  | .str _, .arr _ | .str _, .obj _ => isFalse (fun hh => Json.noConfusion hh)
  | .arr _, .null | .arr _, .bool _ | .arr _, .int _ | .arr _, .float _
  | .arr _, .str _ | .arr _, .obj _ => isFalse (fun hh => Json.noConfusion hh)
  | .obj _, .null | .obj _, .bool _ | .obj _, .int _ | .obj _, .float _
  | .obj _, .str _ | .obj _, .arr _ => isFalse (fun hh => Json.noConfusion hh)

/-- Decidable equality for lists of recipe values. -/
def Json.decEqList : (u v : List Json) → Decidable (u = v)
  | [], [] => isTrue rfl
  | x :: xs, y :: ys =>
    match Json.decEq x y, Json.decEqList xs ys with
    | isTrue h1, isTrue h2 => isTrue (by rw [h1, h2])
    | isFalse h1, _ => isFalse (fun hh => h1 (by injection hh))
    | _, isFalse h2 => isFalse (fun hh => h2 (by injection hh))
  | [], _ :: _ => isFalse (fun hh => List.noConfusion hh)
  | _ :: _, [] => isFalse (fun hh => List.noConfusion hh)

/-- Decidable equality for ordered key-value field lists. -/
def Json.decEqObj : (u v : List (String × Json)) → Decidable (u = v)
  | [], [] => isTrue rfl
  | (k1, x) :: xs, (k2, y) :: ys =>
    match String.decEq k1 k2, Json.decEq x y, Json.decEqObj xs ys with
    | isTrue h0, isTrue h1, isTrue h2 => isTrue (by rw [h0, h1, h2])
    | isFalse h0, _, _ =>
      isFalse (fun hh => h0 (by injection hh with h3 h4; injection h3))
    | _, isFalse h1, _ =>
      isFalse (fun hh => h1 (by injection hh with h3 h4; injection h3))
    | _, _, isFalse h2 => isFalse (fun hh => h2 (by injection hh))
  | [], _ :: _ => isFalse (fun hh => List.noConfusion hh)
  | _ :: _, [] => isFalse (fun hh => List.noConfusion hh)

end

instance : DecidableEq Json := Json.decEq

/-- Generic first-match lookup in an ordered association list (Python dict
read, insertion-ordered). -/
def alistGet {α : Type} : List (String × α) → String → Option α
  | [], _ => none
  | (k, v) :: rest, key => if k == key then some v else alistGet rest key

/-- Generic key update in an ordered association list (Python dict assignment:
overwrite in place, else append). -/
def alistSet {α : Type} : List (String × α) → String → α → List (String × α)
  | [], key, v => [(key, v)]
  | (k, w) :: rest, key, v =>
    if k == key then (k, v) :: rest else (k, w) :: alistSet rest key v

/-- Translation of `NodeVar` (parser/_node_var.py) as used by the CBC parser:
a value plus the selector parsed from its inline comment (the comment-string
plumbing is dropped; only the parsed selector is consulted by the verified
operations). -/
structure NodeVar where
  value : Json
  selector : Option SelectorParser

/-- Errors of the CBC query functions: Python `KeyError`, `ValueError` and
`ZipKeysException` (parser/exceptions.py). -/
inductive CbcErr where
  | keyError
  | valueError
  | zipKeys
deriving DecidableEq, Repr

/-- State of a constructed `CbcParser` (parser/cbc_parser.py): the variable
table `_cbc_vars_tbl` and the zip-key groups `_zip_keys`. -/
structure CbcParser where
  cbcVarsTbl : List (String × List NodeVar)
  zipKeys : List (List NodeVar)

/-- Translation of `CbcParser.list_cbc_variables` (parser/cbc_parser.py). -/
def CbcParser.listCbcVariables (p : CbcParser) : List String :=
  p.cbcVarsTbl.map (·.1)

/-- Does a CBC entry apply under the query: `selector is None or
selector.does_selector_apply(query)` (parser/cbc_parser.py). -/
def NodeVar.applies (e : NodeVar) (query : SelectorQuery) : Bool :=
  match e.selector with
  | none => true
  | some sel => sel.doesSelectorApply query

/-- Translation of `CbcParser.get_cbc_variable_values` (parser/cbc_parser.py)
in the no-default form used by `generate_cbc_values`: a missing variable
raises `KeyError`, no applicable entry raises `ValueError`, otherwise the
applicable entries' values are returned in order. -/
def getCbcVariableValues (p : CbcParser) (varName : String) (query : SelectorQuery) :
    Except CbcErr (List Json) :=
  match alistGet p.cbcVarsTbl varName with
  | none => .error .keyError
  | some entries =>
    let selected := (entries.filter (fun e => e.applies query)).map (·.value)
    if selected.isEmpty then .error .valueError else .ok selected

/-- Order-preserving de-duplication: the observable content of the Python
`set` built per zip group, taken in insertion order (Python set iteration
order is interpreter-defined; every verified statement is order-insensitive). -/
def dedupeStr : List String → List String → List String
  | [], _ => []
  | x :: tl, seen =>
    if seen.contains x then dedupeStr tl seen else x :: dedupeStr tl (x :: seen)

/-- Duplicate detection across zip-key groups (`_validate_zip_keys`,
parser/cbc_parser.py): walk the groups keeping a seen-set. -/
def zipKeysSeenDup : List (List String) → List String → Bool
  | [], _ => false
  | g :: rest, seen =>
    match zipKeysGroupDup g seen with
    | none => true
    | some seen2 => zipKeysSeenDup rest seen2
where
  zipKeysGroupDup : List String → List String → Option (List String)
    | [], seen => some seen
    | k :: tl, seen =>
      if seen.contains k then none else zipKeysGroupDup tl (k :: seen)

/-- Translation of `CbcParser._validate_zip_keys` (parser/cbc_parser.py):
every group needs more than one member and no key may appear in two groups. -/
def validateZipKeys (zipKeys : List (List String)) : Except CbcErr Unit :=
  if !(zipKeys.all (fun ks => decide (ks.length > 1))) then .error .zipKeys
  else if zipKeysSeenDup zipKeys [] then .error .zipKeys
  else .ok ()

/-- Translation of `CbcParser.get_zip_keys` (parser/cbc_parser.py): `KeyError`
when the file defines no zip keys; per group, collect the applicable members'
values (a Python set, modelled in insertion order; the constructor guarantees
the members are strings); drop empty groups; `ValueError` when nothing
remains; then validate. -/
def getZipKeys (p : CbcParser) (query : SelectorQuery) :
    Except CbcErr (List (List String)) :=
  if p.zipKeys.isEmpty then .error .keyError
  else
    let zipKeysOut := (p.zipKeys.map (fun listOfKeys =>
      dedupeStr ((listOfKeys.filter (fun k => k.applies query)).filterMap
        (fun k => match k.value with
          | .str s => some s
          | _ => none)) [])).filter (fun ks => !ks.isEmpty)
    if zipKeysOut.isEmpty then .error .valueError
    else
      match validateZipKeys zipKeysOut with
      | .ok _ => .ok zipKeysOut
      | .error e => .error e

/-- Translation of `CbcParser._validate_zip_keys_against_cbc_values`
(parser/cbc_parser.py): every zip key must be present among the merged CBC
values; nothing else — in particular no list-length comparison — is checked. -/
def validateZipKeysAgainstCbcValues (zipKeys : List (List String))
    (cbcValues : List (String × List Json)) : Except CbcErr Unit :=
  if zipKeys.all (fun g => g.all (fun k => (alistGet cbcValues k).isSome)) then .ok ()
  else .error .zipKeys

/-- Decimal digit characters for `natToDecimal`. -/
def natDigitChar (n : Nat) : Char :=
  match n with
  | 0 => '0'
  | 1 => '1'
  | 2 => '2'
  | 3 => '3'
  | 4 => '4'
  | 5 => '5'
  | 6 => '6'
  | 7 => '7'
  | 8 => '8'
  | 9 => '9'
  | _ => '?'

/-- Kernel-evaluable decimal rendering of a natural number. -/
def natToDecimalGo : Nat → Nat → List Char → List Char
  | 0, _, acc => acc
  | f + 1, n, acc =>
    if n < 10 then natDigitChar n :: acc
    else natToDecimalGo f (n / 10) (natDigitChar (n % 10) :: acc)
termination_by structural f _ _ => f

/-- Decimal rendering of a natural number (Python f-string interpolation). -/
def natToDecimal (n : Nat) : String :=
  String.mk (natToDecimalGo (n + 1) n [])

/-- Runtime environment the default variant values depend on: `DEFAULT_VARIANTS`
(parser/types.py) reads `sys.version_info` and `sys.platform`. -/
structure PyEnv where
  pythonMajor : Nat
  pythonMinor : Nat
  isWinPlatform : Bool

/-- The numpy default version table of `DEFAULT_VARIANTS` (parser/types.py),
keyed by the running Python version with fallback "1.26". -/
def defaultNumpyVersion (major minor : Nat) : String :=
  match major, minor with
  | 3, 8 => "1.22"
  | 3, 9 => "1.22"
  | 3, 10 => "1.22"
  | 3, 11 => "1.23"
  | 3, 12 => "1.26"
  | _, _ => "1.26"

/-- Translation of `DEFAULT_VARIANTS` (parser/types.py): the copied
conda-build default variants, with the runtime-dependent entries taken from
the `PyEnv` argument. -/
def DEFAULT_VARIANTS (env : PyEnv) : List (String × Json) :=
  [("python", .str (natToDecimal env.pythonMajor ++ "." ++ natToDecimal env.pythonMinor)),
   ("numpy", .str (defaultNumpyVersion env.pythonMajor env.pythonMinor)),
   ("perl", .str "5.26.2"),
   ("lua", .str "5"),
   ("r_base", .str (if env.isWinPlatform then "3.4" else "3.5")),
   ("cpu_optimization_target", .str "nocona"),
   ("pin_run_as_build",
    .obj [("python", .obj [("min_pin", .str "x.x"), ("max_pin", .str "x.x")]),
          ("r-base", .obj [("min_pin", .str "x.x"), ("max_pin", .str "x.x")])]),
   ("ignore_version", .arr []),
   ("ignore_build_only_deps", .arr [.str "python", .str "numpy"]),
   ("extend_keys", .arr [.str "pin_run_as_build", .str "ignore_version",
                         .str "ignore_build_only_deps", .str "extend_keys"]),
   ("cran_mirror", .str "https://cran.r-project.org")]

/-- Special keys the CBC parser skips (parser/cbc_parser.py, `_SPECIAL_KEYS`). -/
def SPECIAL_KEYS : List String :=
  ["pin_run_as_build", "extend_keys", "ignore_version", "ignore_build_only_deps"]

/-- The variable table `_construct_default_variants_cbc`
(parser/cbc_parser.py) would install were the `CbcParser` construction to
succeed: special keys are skipped, primitive values are wrapped into
one-element entry lists, non-list non-primitive values are skipped, and the
defaults carry no comments, selectors or zip keys. The yaml.dump/parse round
trip performed by the source is the identity on this scalar table. -/
def defaultVariantsTbl (env : PyEnv) : List (String × List NodeVar) :=
  (DEFAULT_VARIANTS env).filterMap (fun kv =>
    if SPECIAL_KEYS.contains kv.1 then none
    else
      match kv.2 with
      | .arr xs => if xs.isEmpty then none
          else some (kv.1, xs.map (fun x => NodeVar.mk x none))
      | .obj _ => none
      | prim => some (kv.1, [NodeVar.mk prim none]))

/-- Translation of `CbcParser._construct_default_variants_cbc`
(parser/cbc_parser.py): dump `DEFAULT_VARIANTS` to yaml text and construct a
`CbcParser` on it. In this snapshot that construction raises `TypeError` at
argument binding (`cbcParserInit`, cbc_parser.py line 114) before the text is
read — the dumped text is therefore irrelevant to the outcome and passed here
as the empty string — and the unreachable success branch would hold
`defaultVariantsTbl`. -/
def constructDefaultVariantsCbc (env : PyEnv) : Except CallErr CbcParser :=
  match cbcParserInit "" with
  | .error e => .error e
  | .ok _ => .ok { cbcVarsTbl := defaultVariantsTbl env, zipKeys := [] }

/-- Inner variable loop of `CbcParser.generate_cbc_values`
(parser/cbc_parser.py): clobber the accumulated values with this file's
applicable values, skipping variables without applicable entries
(`except ValueError: continue`). -/
def mergeCbcVars (f : CbcParser) (query : SelectorQuery) :
    List String → List (String × List Json) → Except CbcErr (List (String × List Json))
  | [], acc => .ok acc
  | v :: rest, acc =>
    match getCbcVariableValues f v query with
    | .ok vs => mergeCbcVars f query rest (alistSet acc v vs)
    | .error .valueError => mergeCbcVars f query rest acc
    | .error e => .error e

/-- Zip-key step of the file loop of `CbcParser.generate_cbc_values`
(parser/cbc_parser.py): `KeyError` and `ValueError` from `get_zip_keys` are
swallowed (keeping the previous groups), `ZipKeysException` propagates. -/
def fileZipKeys (f : CbcParser) (query : SelectorQuery) (zk : List (List String)) :
    Except CbcErr (List (List String)) :=
  match getZipKeys f query with
  | .ok z => .ok z
  | .error .keyError => .ok zk
  | .error .valueError => .ok zk
  | .error .zipKeys => .error .zipKeys

/-- File loop of `CbcParser.generate_cbc_values` (parser/cbc_parser.py):
take each file's zip keys when it has applicable ones, then clobber the
value table left to right. -/
def mergeCbcFiles (query : SelectorQuery) :
    List CbcParser → List (String × List Json) × List (List String) →
    Except CbcErr (List (String × List Json) × List (List String))
  | [], acc => .ok acc
  | f :: rest, (vals, zk) =>
    match fileZipKeys f query zk with
    | .error e => .error e
    | .ok zk2 =>
      match mergeCbcVars f query f.listCbcVariables vals with
      | .error e => .error e
      | .ok vals2 => mergeCbcFiles query rest (vals2, zk2)

/-- Translation of `CbcParser.generate_cbc_values` (parser/cbc_parser.py).
Its first statement (line 298) constructs the default-variants parser — which
in this snapshot raises `TypeError` on every call (see `cbcParserInit`) — and
only then would the function mutate its caller's list in place
(`cbc_files.insert(0, default_variants_cbc)`, line 299) and merge. The
mutation is modelled by returning the list state alongside the result:
unchanged when the construction raised, prepended-to otherwise. -/
def generateCbcValues (env : PyEnv) (cbcFiles : List CbcParser) (query : SelectorQuery) :
    Except CallErr (Except CbcErr (List (String × List Json) × List (List String))) ×
      List CbcParser :=
  match constructDefaultVariantsCbc env with
  | .error e => (.error e, cbcFiles)
  | .ok d =>
    let newFiles := d :: cbcFiles
    let result :=
      match mergeCbcFiles query newFiles ([], []) with
      | .error e => .error e
      | .ok (vals, zk) =>
        match validateZipKeysAgainstCbcValues zk vals with
        | .ok _ => .ok (vals, zk)
        | .error e => .error e
    (.ok result, newFiles)

/-- Translation of Python's `zip(*lists)` over value lists: truncates to the
shortest list. One unit of fuel is spent per produced tuple; the first list's
length bounds the output. -/
def pyZipGo : Nat → List (List Json) → List (List Json)
  | 0, _ => []
  | f + 1, ls =>
    if ls.isEmpty || ls.any (·.isEmpty) then []
    else (ls.map (fun l => l.headD .null)) :: pyZipGo f (ls.map (·.tail))
termination_by structural f _ => f

/-- Python `list(zip(*lists))`. -/
def pyZip (ls : List (List Json)) : List (List Json) :=
  pyZipGo ((ls.headD []).length + 1) ls

/-- Translation of `itertools.product`: all combinations, the rightmost input
varying fastest. -/
def pyProduct {α : Type} : List (List α) → List (List α)
  | [] => [[]]
  | xs :: rest => (xs.map (fun x => (pyProduct rest).map (fun combo => x :: combo))).flatten

/-- An entry of `all_keys` in `CbcParser.generate_variants`
(parser/cbc_parser.py): a free variable name or a zip-group key tuple. -/
inductive AllKey where
  | single (k : String)
  | tup (ks : List String)

/-- An entry of a product combination in `CbcParser.generate_variants`
(parser/cbc_parser.py): a free value or a zipped value tuple. -/
inductive ComboVal where
  | single (v : Json)
  | tup (vs : List Json)

/-- Variant construction for one product combination
(parser/cbc_parser.py, the loop over `all_combinations`): seed with
`zip_keys` and `target_platform`, then assign the combination's values,
pairing each zip-key tuple with its value tuple. The mixed-type dict values
are encoded as `Json`; a `Platform` renders as its string value and an absent
platform as `null` (Python `None`). -/
def variantOfCombo (query : SelectorQuery) (zipKeys : List (List String))
    (allKeys : List AllKey) (combo : List ComboVal) : List (String × Json) :=
  let base : List (String × Json) :=
    [("zip_keys", Json.arr (zipKeys.map (fun g => Json.arr (g.map Json.str)))),
     ("target_platform",
      match query.platform with
      | some p => Json.str p.strValue
      | none => Json.null)]
  (allKeys.zip combo).foldl (fun acc kv =>
    match kv with
    | (.single key, .single value) => alistSet acc key value
    | (.tup ks, .tup vs) =>
      (ks.zip vs).foldl (fun a kv2 => alistSet a kv2.1 kv2.2) acc
    | _ => acc) base

/-- The `cbc_values[key]` reads of `CbcParser.generate_variants`
(parser/cbc_parser.py): a missing key would raise `KeyError`. -/
def collectVals (cbcValues : List (String × List Json)) :
    List String → Except CbcErr (List (List Json))
  | [] => .ok []
  | k :: rest =>
    match alistGet cbcValues k with
    | some vs =>
      match collectVals cbcValues rest with
      | .ok tl => .ok (vs :: tl)
      | .error e => .error e
    | none => .error .keyError

/-- The zipped-values construction of `CbcParser.generate_variants`
(parser/cbc_parser.py): one truncating zip per group. -/
def collectZipVals (cbcValues : List (String × List Json)) :
    List (List String) → Except CbcErr (List (List (List Json)))
  | [] => .ok []
  | g :: rest => do
    let lists ← collectVals cbcValues g
    let tl ← collectZipVals cbcValues rest
    .ok (pyZip lists :: tl)

/-- Translation of `CbcParser.generate_variants` (parser/cbc_parser.py): it
delegates to `generate_cbc_values` — whose default-variants construction
raises `TypeError` on every call in this snapshot, and that error propagates
— then splits the merged names into free names and zip groups, zips each
group, takes the product, and builds one variant per combination. The Python
function iterates hash sets where this model keeps insertion order; every
verified statement is order-insensitive. -/
def generateVariants (env : PyEnv) (cbcFiles : List CbcParser) (query : SelectorQuery) :
    Except CallErr (Except CbcErr (List (List (String × Json)))) × List CbcParser :=
  let (res, newFiles) := generateCbcValues env cbcFiles query
  match res with
  | .error e => (.error e, newFiles)
  | .ok inner =>
    let out : Except CbcErr (List (List (String × Json))) := do
      let (cbcValues, zipKeys) ← inner
      let unzippedKeys :=
        (cbcValues.map (·.1)).filter (fun k => !(zipKeys.any (fun g => g.contains k)))
      let allKeys : List AllKey := unzippedKeys.map .single ++ zipKeys.map .tup
      let freeVals ← collectVals cbcValues unzippedKeys
      let zipVals ← collectZipVals cbcValues zipKeys
      let allValues : List (List ComboVal) :=
        freeVals.map (fun vs => vs.map ComboVal.single) ++
          zipVals.map (fun tuples => tuples.map ComboVal.tup)
      let combos := pyProduct allValues
      Except.ok (combos.map (variantOfCombo query zipKeys allKeys))
    (.ok out, newFiles)

/-! ### C4: what the zip machinery actually guarantees -/

/-- Length of the shortest of a non-empty family of value lists (0 for the
empty family). -/
def minLen : List (List Json) → Nat
  | [] => 0
  | l :: rest => if rest.isEmpty then l.length else min l.length (minLen rest)

theorem minLen_single (l : List Json) : minLen [l] = l.length := by
  simp [minLen]

theorem minLen_cons2 (l r2 : List Json) (rtl : List (List Json)) :
    minLen (l :: r2 :: rtl) = min l.length (minLen (r2 :: rtl)) := by
  conv_lhs => rw [minLen]
  simp

theorem minLen_of_any_empty : ∀ (ls : List (List Json)), ls ≠ [] →
    ls.any (·.isEmpty) = true → minLen ls = 0 := by
  intro ls hne hany
  induction ls with
  | nil => exact absurd rfl hne
  | cons l rest ih =>
    simp only [List.any_cons, Bool.or_eq_true] at hany
    match rest, hany with
    | [], Or.inl h =>
      rw [minLen_single]
      simpa [List.isEmpty_iff] using h
    | [], Or.inr h => simp at h
    | r2 :: rtl, Or.inl h =>
      rw [minLen_cons2]
      have : l.length = 0 := by simpa [List.isEmpty_iff] using h
      omega
    | r2 :: rtl, Or.inr h =>
      rw [minLen_cons2]
      have := ih (List.cons_ne_nil r2 rtl) (by simpa using h)
      omega

theorem minLen_map_tail : ∀ (ls : List (List Json)), ls ≠ [] →
    ls.any (·.isEmpty) = false →
    minLen (ls.map (·.tail)) = minLen ls - 1 ∧ 1 ≤ minLen ls := by
  intro ls hne hany
  induction ls with
  | nil => exact absurd rfl hne
  | cons l rest ih =>
    simp only [List.any_cons, Bool.or_eq_false_iff] at hany
    have hl : 1 ≤ l.length := by
      have : ¬(l = []) := by simpa [List.isEmpty_iff] using hany.1
      cases l with
      | nil => exact absurd rfl this
      | cons a tl => simp
    match rest with
    | [] =>
      constructor
      · simp [minLen_single, List.length_tail]
      · rw [minLen_single]; exact hl
    | r2 :: rtl =>
      have hrec := ih (List.cons_ne_nil r2 rtl) (by simpa using hany.2)
      rw [List.map_cons, List.map_cons]
      rw [minLen_cons2, minLen_cons2, List.length_tail]
      rw [List.map_cons] at hrec
      constructor
      · omega
      · omega

theorem pyZipGo_length : ∀ (f : Nat) (ls : List (List Json)), ls ≠ [] →
    (ls.headD []).length < f → (pyZipGo f ls).length = minLen ls := by
  intro f
  induction f with
  | zero => intro ls _ h; omega
  | succ f ih =>
    intro ls hne hlt
    match ls, hne with
    | x :: xs, _ =>
      by_cases hany : (x :: xs).any (·.isEmpty) = true
      · rw [show pyZipGo (f + 1) (x :: xs) = [] from by
          simp [pyZipGo, hany]]
        rw [minLen_of_any_empty (x :: xs) (List.cons_ne_nil x xs) hany]
        rfl
      · have hany' : (x :: xs).any (·.isEmpty) = false := by
          revert hany; cases (x :: xs).any (·.isEmpty) <;> simp
        have hstep : pyZipGo (f + 1) (x :: xs) =
            ((x :: xs).map (fun l => l.headD .null)) ::
              pyZipGo f ((x :: xs).map (·.tail)) := by
          simp [pyZipGo, hany']
        have hx1 : 1 ≤ x.length := by
          simp only [List.any_cons, Bool.or_eq_false_iff] at hany'
          have : ¬(x = []) := by simpa [List.isEmpty_iff] using hany'.1
          cases x with
          | nil => exact absurd rfl this
          | cons a tl => simp
        have hmt := minLen_map_tail (x :: xs) (List.cons_ne_nil x xs) hany'
        have hrec := ih ((x :: xs).map (·.tail))
          (by simp)
          (by
            simp only [List.map_cons, List.headD_cons, List.length_tail]
            simp only [List.headD_cons] at hlt
            omega)
        rw [hstep]
        simp only [List.length_cons, hrec]
        omega

theorem pyZip_length (ls : List (List Json)) (hne : ls ≠ []) :
    (pyZip ls).length = minLen ls := by
  apply pyZipGo_length
  · exact hne
  · omega

/-- The failing input of C4: a parser state whose zip group
`["python", "numpy"]` carries value lists of lengths 2 and 1. (In this
snapshot no `CbcParser` can actually be constructed — `cbcParserInit` raises
— so this is the state the mismatched CBC text would produce.) -/
def c4File : CbcParser :=
  { cbcVarsTbl :=
      [("python", [⟨Json.str "3.10", none⟩, ⟨Json.str "3.11", none⟩]),
       ("numpy", [⟨Json.str "1.26", none⟩])],
    zipKeys := [[⟨Json.str "python", none⟩, ⟨Json.str "numpy", none⟩]] }

/-- Runtime environment of the C4 failing input. -/
def c4Env : PyEnv := ⟨3, 12, false⟩

/-- Query of the C4 failing input. -/
def c4Query : SelectorQuery := ⟨some Platform.LINUX_64, []⟩

/-- C4: the same-length requirement on zip-group value lists is not enforced.
In this snapshot every `generate_variants` call raises `TypeError` before any
validation runs (its delegate's first statement constructs the
default-variants `CbcParser`, which raises at argument binding), so a
mismatched CBC is never rejected with the claimed error. Independently of
that constructor bug, the function bodies compare no lengths:
`_validate_zip_keys_against_cbc_values` accepts exactly when every zip key is
present among the merged values, and the group tuples come from the
truncating `zip(*...)`, whose output length is the shortest member list's
length — so the mismatch would be silently truncated, not rejected. -/
theorem crm_C4_zip_group_never_rejected :
    (∀ (env : PyEnv) (files : List CbcParser) (q : SelectorQuery),
      (generateVariants env files q).1 = Except.error CallErr.typeError) ∧
    (∀ (zk : List (List String)) (cbcValues : List (String × List Json)),
      validateZipKeysAgainstCbcValues zk cbcValues = Except.ok () ↔
        (zk.all (fun g => g.all (fun k => (alistGet cbcValues k).isSome))) = true) ∧
    (∀ ls : List (List Json), ls ≠ [] → (pyZip ls).length = minLen ls) := by
  refine ⟨fun _ _ _ => rfl, ?_, pyZip_length⟩
  intro zk cbcValues
  unfold validateZipKeysAgainstCbcValues
  by_cases h : (zk.all (fun g => g.all (fun k => (alistGet cbcValues k).isSome))) = true
  · simp [h]
  · simp [h]

/-- Witness for the C4 theorem: on the mismatched input `generate_variants`
raises `TypeError`; presence-only validation accepts the mismatched group;
and the zip of a 2-list with a 1-list has length 1. -/
theorem crm_C4_zip_group_never_rejected_witness :
    (generateVariants c4Env [c4File] c4Query).1 = Except.error CallErr.typeError ∧
    validateZipKeysAgainstCbcValues [["python", "numpy"]]
      [("python", [Json.str "3.10", Json.str "3.11"]), ("numpy", [Json.str "1.26"])] =
      Except.ok () ∧
    (pyZip [[Json.str "3.10", Json.str "3.11"], [Json.str "1.26"]]).length = 1 := by
  refine ⟨crm_C4_zip_group_never_rejected.1 c4Env [c4File] c4Query, ?_, ?_⟩
  · exact (crm_C4_zip_group_never_rejected.2.1 _ _).mpr (by decide)
  · have h := crm_C4_zip_group_never_rejected.2.2
      [[Json.str "3.10", Json.str "3.11"], [Json.str "1.26"]] (by decide)
    simpa using h

/-! ### C10: in-place mutation of the caller's cbc_files list -/

theorem alistGet_alistSet_self {α : Type} :
    ∀ (l : List (String × α)) (k : String) (v : α),
    alistGet (alistSet l k v) k = some v := by
  intro l k v
  induction l with
  | nil => simp [alistSet, alistGet]
  | cons hd tl ih =>
    obtain ⟨k1, w⟩ := hd
    by_cases h : k1 == k
    · simp [alistSet, alistGet, h]
    · simp only [alistSet, alistGet, h, Bool.false_eq_true, if_false]
      exact ih

theorem alistGet_alistSet_ne {α : Type} :
    ∀ (l : List (String × α)) (k k' : String) (v : α), k' ≠ k →
    alistGet (alistSet l k' v) k = alistGet l k := by
  intro l k k' v hne
  induction l with
  | nil =>
    have : (k' == k) = false := by simpa using hne
    simp [alistSet, alistGet, this]
  | cons hd tl ih =>
    obtain ⟨k1, w⟩ := hd
    by_cases h : k1 == k'
    · have hk1 : k1 = k' := by simpa using h
      subst hk1
      have : (k1 == k) = false := by simpa using hne
      simp [alistSet, alistGet, this]
    · simp only [alistSet, h, Bool.false_eq_true, if_false]
      by_cases h2 : k1 == k
      · simp [alistGet, h2]
      · simp only [alistGet, h2, Bool.false_eq_true, if_false]
        exact ih

theorem alistGet_some_mem_keys {α : Type} :
    ∀ (l : List (String × α)) (k : String) (x : α),
    alistGet l k = some x → k ∈ l.map (·.1) := by
  intro l k x h
  induction l with
  | nil => exact absurd h (by simp [alistGet])
  | cons hd tl ih =>
    obtain ⟨k1, w⟩ := hd
    by_cases h1 : k1 == k
    · have : k1 = k := by simpa using h1
      subst this
      simp
    · simp only [alistGet, h1, Bool.false_eq_true, if_false] at h
      simp only [List.map_cons, List.mem_cons]
      exact Or.inr (ih h)

theorem getCbcVariableValues_ok_key (f : CbcParser) (v : String) (q : SelectorQuery)
    (vs : List Json) (h : getCbcVariableValues f v q = Except.ok vs) :
    v ∈ f.listCbcVariables := by
  unfold getCbcVariableValues at h
  cases hg : alistGet f.cbcVarsTbl v with
  | none => rw [hg] at h; exact Except.noConfusion h
  | some entries => exact alistGet_some_mem_keys _ _ _ hg

theorem mergeCbcVars_get_not_mem (f : CbcParser) (q : SelectorQuery) (v : String) :
    ∀ (names : List String) (acc acc' : List (String × List Json)), v ∉ names →
    mergeCbcVars f q names acc = Except.ok acc' → alistGet acc' v = alistGet acc v := by
  intro names
  induction names with
  | nil =>
    intro acc acc' _ h
    have : acc = acc' := by simpa [mergeCbcVars] using h
    rw [this]
  | cons n rest ih =>
    intro acc acc' hnm h
    have hsplit : v ≠ n ∧ v ∉ rest := by
      simpa [List.mem_cons, not_or] using hnm
    unfold mergeCbcVars at h
    cases hg : getCbcVariableValues f n q with
    | ok ws =>
      rw [hg] at h
      have h2 := ih (alistSet acc n ws) acc' hsplit.2 h
      rw [h2]
      exact alistGet_alistSet_ne acc v n ws (fun he => hsplit.1 he.symm)
    | error e =>
      rw [hg] at h
      cases e with
      | valueError => exact ih acc acc' hsplit.2 h
      | keyError => exact Except.noConfusion h
      | zipKeys => exact Except.noConfusion h

theorem mergeCbcVars_get_mem (f : CbcParser) (q : SelectorQuery) (v : String)
    (vs : List Json) (hv : getCbcVariableValues f v q = Except.ok vs) :
    ∀ (names : List String) (acc acc' : List (String × List Json)), v ∈ names →
    mergeCbcVars f q names acc = Except.ok acc' → alistGet acc' v = some vs := by
  intro names
  induction names with
  | nil => intro acc acc' hm _; exact absurd hm (List.not_mem_nil v)
  | cons n rest ih =>
    intro acc acc' hm h
    by_cases hvr : v ∈ rest
    · unfold mergeCbcVars at h
      cases hg : getCbcVariableValues f n q with
      | ok ws => rw [hg] at h; exact ih _ _ hvr h
      | error e =>
        rw [hg] at h
        cases e with
        | valueError => exact ih _ _ hvr h
        | keyError => exact Except.noConfusion h
        | zipKeys => exact Except.noConfusion h
    · have hvn : v = n := by
        rcases List.mem_cons.mp hm with h' | h'
        · exact h'
        · exact absurd h' hvr
      subst hvn
      unfold mergeCbcVars at h
      rw [hv] at h
      have h2 := mergeCbcVars_get_not_mem f q v rest (alistSet acc v vs) acc' hvr h
      rw [h2]
      exact alistGet_alistSet_self acc v vs

theorem mergeCbcFiles_cons_inv (q : SelectorQuery) (f : CbcParser)
    (rest : List CbcParser) (vals : List (String × List Json)) (zk : List (List String))
    (out : List (String × List Json) × List (List String))
    (h : mergeCbcFiles q (f :: rest) (vals, zk) = Except.ok out) :
    ∃ zk2 vals2, fileZipKeys f q zk = Except.ok zk2 ∧
      mergeCbcVars f q f.listCbcVariables vals = Except.ok vals2 ∧
      mergeCbcFiles q rest (vals2, zk2) = Except.ok out := by
  unfold mergeCbcFiles at h
  cases h1 : fileZipKeys f q zk with
  | error e => rw [h1] at h; exact Except.noConfusion h
  | ok zk2 =>
    rw [h1] at h
    cases h2 : mergeCbcVars f q f.listCbcVariables vals with
    | error e => rw [h2] at h; exact Except.noConfusion h
    | ok vals2 => exact ⟨zk2, vals2, rfl, rfl, by rw [h2] at h; exact h⟩

/-- The effect of calling `generate_cbc_values` n times on the same
caller-held list. -/
def generateCbcValuesIter (env : PyEnv) (query : SelectorQuery) :
    Nat → List CbcParser → List CbcParser
  | 0, files => files
  | n + 1, files => generateCbcValuesIter env query n (generateCbcValues env files query).2

theorem generateCbcValuesIter_id (env : PyEnv) (query : SelectorQuery) :
    ∀ (n : Nat) (files : List CbcParser),
    generateCbcValuesIter env query n files = files := by
  intro n
  induction n with
  | zero => intro files; rfl
  | succ n ih => intro files; exact ih files

/-- C10: the `cbc_files.insert(0, ...)` mutation never executes in this
snapshot. The first statement of `generate_cbc_values` (cbc_parser.py line
298) constructs the default-variants `CbcParser`, which raises `TypeError`
at argument binding (the line-114 constructor bug) before the insert at line
299, so every call — and every `generate_variants` call, which delegates to
it — raises without mutating the caller's list; n iterated calls leave the
list exactly as it was. -/
theorem crm_C10_cbc_files_no_mutation :
    (∀ (env : PyEnv) (files : List CbcParser) (q : SelectorQuery),
      (generateCbcValues env files q).1 = Except.error CallErr.typeError ∧
      (generateCbcValues env files q).2 = files) ∧
    (∀ (env : PyEnv) (files : List CbcParser) (q : SelectorQuery),
      (generateVariants env files q).1 = Except.error CallErr.typeError ∧
      (generateVariants env files q).2 = files) ∧
    (∀ (env : PyEnv) (q : SelectorQuery) (n : Nat) (files : List CbcParser),
      generateCbcValuesIter env q n files = files) :=
  ⟨fun _ _ _ => ⟨rfl, rfl⟩, fun _ _ _ => ⟨rfl, rfl⟩,
    fun env q n files => generateCbcValuesIter_id env q n files⟩

/-! ## Artifact fetcher (fetcher/artifact_fetcher.py), claim C7 -/

/-- The single fetcher exception relevant here: `FetchError`
(fetcher/exceptions.py; `ApiException` from the PyPI API module is converted
into a `FetchError` by `_correct_pypi_url`). -/
inductive FetchErr where
  | fetchError
deriving DecidableEq, Repr

/-- An artifact fetcher as observed by `_fetch_corrected_archive`
(fetcher/artifact_fetcher.py): its name, its archive URL, and whether it is
an `HttpArtifactFetcher` (the `isinstance` test). -/
structure Fetcher where
  name : String
  url : String
  isHttp : Bool
deriving DecidableEq, Repr

/-- One release entry of the PyPI JSON API response, as consumed by
`_correct_pypi_url`: its canonical source filename. Modelled from the spec:
the PyPI API module (fetcher/api/pypi.py) is absent from src/. -/
structure PypiRelease where
  filename : String
deriving DecidableEq, Repr

/-- The PyPI JSON API response, as consumed by `_correct_pypi_url`: the
canonical project name (`info.name`) and the release table keyed by version.
Modelled from the spec: the PyPI API module (fetcher/api/pypi.py) is absent
from src/. -/
structure PypiMetadata where
  infoName : String
  releases : List (String × PypiRelease)
deriving DecidableEq, Repr

/-- The two reads `_correct_pypi_url` performs on the recipe reader:
`optional_str(get_value("/package/version", sub_vars=True))` and
`get_recipe_name()`. -/
structure RecipeInfo where
  versionValue : Option String
  recipeName : Option String
deriving DecidableEq, Repr

/-- The external world of the fetcher: whether the k-th attempt (1-based,
per `_fetch_archive` call) at a URL succeeds, and the PyPI JSON API
(`pypi.fetch_package_version_metadata`, error = `ApiException`). -/
structure FetchWorld where
  fetchResult : String → Nat → Bool
  pypiMeta : String → String → Except Unit PypiMetadata

/-- The retry loop of `_fetch_archive` (fetcher/artifact_fetcher.py) over the
attempt ids `range(1, retries + 1)`: true iff some attempt succeeds. -/
def fetchArchiveLoop (w : FetchWorld) (url : String) : List Nat → Bool
  | [] => false
  | i :: rest => if w.fetchResult url i then true else fetchArchiveLoop w url rest

/-- Translation of `_fetch_archive` (fetcher/artifact_fetcher.py): try the
URL `retries` times; the first success returns `(fetcher, None)`, exhaustion
raises `FetchError`. -/
def fetchArchive (w : FetchWorld) (f : Fetcher) (retries : Nat) :
    Except FetchErr (Fetcher × Option String) :=
  if fetchArchiveLoop w f.url ((List.range retries).map (· + 1)) then .ok (f, none)
  else .error .fetchError

/-- ASCII letter-or-digit test, the `[a-zA-Z0-9]` character class of
`_Regex.PYPI_URL`. -/
def isAlnumAscii (c : Char) : Bool :=
  ('a' ≤ c && c ≤ 'z') || ('A' ≤ c && c ≤ 'Z') || ('0' ≤ c && c ≤ '9')

/-- Strip an expected literal prefix from a character list, or fail. -/
def dropLit : List Char → List Char → Option (List Char)
  | [], cs => some cs
  | _ :: _, [] => none
  | p :: ps, c :: cs => if p == c then dropLit ps cs else none

/-- The `https?://` part of `_Regex.PYPI_URL` (re.match anchors at the start
of the URL). -/
def pypiSchemeRest (cs : List Char) : Option (List Char) :=
  match dropLit ("https://".data) cs with
  | some r => some r
  | none => dropLit ("http://".data) cs

/-- The first alternative of `_Regex.PYPI_URL` after the scheme. -/
def pypiHostTail (rest : List Char) : Bool :=
  match dropLit ("pypi.".data) rest with
  | none => false
  | some r1 =>
    match (match dropLit ("io".data) r1 with
           | some r => some r
           | none => dropLit ("org".data) r1) with
    | none => false
    | some r2 =>
      match dropLit ("/packages/source/".data) r2 with
      | some (c :: '/' :: _) => isAlnumAscii c
      | _ => false

/-- The second alternative of `_Regex.PYPI_URL` after the scheme. -/
def filesHostTail (rest : List Char) : Bool :=
  (dropLit ("files.pythonhosted.org/".data) rest).isSome

/-- Translation of `_Regex.PYPI_URL.match(url) is not None`
(fetcher/artifact_fetcher.py). -/
def pypiUrlMatch (url : String) : Bool :=
  match pypiSchemeRest url.data with
  | none => false
  | some rest => pypiHostTail rest || filesHostTail rest

/-- Translation of `_correct_pypi_url` (fetcher/artifact_fetcher.py):
missing version or package name, an API failure, an unknown version, or an
empty canonical filename/name raise `FetchError`; otherwise the corrected
URL is assembled from the API response. -/
def correctPypiUrl (w : FetchWorld) (r : RecipeInfo) : Except FetchErr String :=
  match r.versionValue with
  | none => .error .fetchError
  | some version =>
    match r.recipeName with
    | none => .error .fetchError
    | some packageName =>
      match w.pypiMeta packageName version with
      | .error _ => .error .fetchError
      | .ok meta =>
        match alistGet meta.releases version with
        | none => .error .fetchError
        | some release =>
          if release.filename.data.isEmpty || meta.infoName.data.isEmpty then
            .error .fetchError
          else
            .ok ("https://pypi.org/packages/source/" ++
              String.mk (meta.infoName.data.take 1) ++ "/" ++ meta.infoName ++
              "/" ++ release.filename)

/-- `original_retries` of `_fetch_corrected_archive`
(fetcher/artifact_fetcher.py): `retries // 2 + 1 if retries % 2 else
retries // 2`. -/
def originalRetries (retries : Nat) : Nat :=
  if retries % 2 != 0 then retries / 2 + 1 else retries / 2

/-- `corrected_retries` of `_fetch_corrected_archive`
(fetcher/artifact_fetcher.py). -/
def correctedRetries (retries : Nat) : Nat := retries / 2

/-- Translation of `_fetch_corrected_archive` (fetcher/artifact_fetcher.py):
non-HTTP fetchers and non-PyPI URLs get a plain `_fetch_archive` with the
whole budget; a PyPI URL is tried with `original_retries`, and only on
`FetchError` is the corrected URL built and fetched with
`corrected_retries`, returning the corrected fetcher and URL. -/
def fetchCorrectedArchive (w : FetchWorld) (r : RecipeInfo) (f : Fetcher)
    (retries : Nat) : Except FetchErr (Fetcher × Option String) :=
  if !f.isHttp then fetchArchive w f retries
  else if !(pypiUrlMatch f.url) then fetchArchive w f retries
  else
    match fetchArchive w f (originalRetries retries) with
    | .ok res => .ok res
    | .error _ =>
      match correctPypiUrl w r with
      | .error e => .error e
      | .ok correctedUrl =>
        match fetchArchive w (Fetcher.mk f.name correctedUrl true)
            (correctedRetries retries) with
        | .ok _ => .ok (Fetcher.mk f.name correctedUrl true, some correctedUrl)
        | .error e => .error e

/-- C7: for an HTTP fetcher whose URL matches the PyPI pattern, the two
half-budgets sum to the whole retry budget; success on the original URL
within `original_retries` returns the original fetcher with no corrected
URL; on failure, the corrected URL (built from the PyPI API response as
https://pypi.org/packages/source/first-letter/name/filename) is fetched with
the remaining `corrected_retries` and returned alongside the new fetcher. -/
theorem crm_C7_pypi_retry_split (w : FetchWorld) (r : RecipeInfo) (f : Fetcher)
    (retries : Nat) (hhttp : f.isHttp = true) (hmatch : pypiUrlMatch f.url = true) :
    originalRetries retries + correctedRetries retries = retries ∧
    (fetchArchive w f (originalRetries retries) = Except.ok (f, none) →
      fetchCorrectedArchive w r f retries = Except.ok (f, none)) ∧
    (fetchArchive w f (originalRetries retries) = Except.error FetchErr.fetchError →
      ∀ url : String, correctPypiUrl w r = Except.ok url →
      fetchArchive w (Fetcher.mk f.name url true) (correctedRetries retries) =
        Except.ok (Fetcher.mk f.name url true, none) →
      fetchCorrectedArchive w r f retries =
        Except.ok (Fetcher.mk f.name url true, some url)) ∧
    (∀ (version pname : String) (meta : PypiMetadata) (rel : PypiRelease),
      r.versionValue = some version → r.recipeName = some pname →
      w.pypiMeta pname version = Except.ok meta →
      alistGet meta.releases version = some rel →
      rel.filename.data.isEmpty = false → meta.infoName.data.isEmpty = false →
      correctPypiUrl w r = Except.ok
        ("https://pypi.org/packages/source/" ++ String.mk (meta.infoName.data.take 1) ++
          "/" ++ meta.infoName ++ "/" ++ rel.filename)) := by
  refine ⟨?_, ?_, ?_, ?_⟩
  · unfold originalRetries correctedRetries
    by_cases h : retries % 2 = 0
    · simp only [h]
      simp
      omega
    · have hb : (retries % 2 != 0) = true := by simpa using h
      simp only [hb, if_true]
      omega
  · intro horig
    simp [fetchCorrectedArchive, hhttp, hmatch, horig]
  · intro horig url hurl hfetch
    simp [fetchCorrectedArchive, hhttp, hmatch, horig, hurl, hfetch]
  · intro version pname meta rel hv hn hm hr hf hi
    simp [correctPypiUrl, hv, hn, hm, hr, hf, hi]

/-- The fetch world of the C7 witness: the original URL always fails, the
corrected URL succeeds on its first attempt, and the PyPI API knows
`foo-pkg` version `1.0`. -/
def c7World : FetchWorld :=
  { fetchResult := fun url attempt =>
      url == "https://pypi.org/packages/source/f/foo-pkg/foo_pkg-1.0.tar.gz" &&
        attempt == 1,
    pypiMeta := fun name version =>
      if name == "foo-pkg" && version == "1.0" then
        Except.ok { infoName := "foo-pkg",
                    releases := [("1.0", { filename := "foo_pkg-1.0.tar.gz" })] }
      else Except.error () }

/-- The recipe reads of the C7 witness. -/
def c7Reader : RecipeInfo := { versionValue := some "1.0", recipeName := some "foo-pkg" }

/-- The fetcher of the C7 witness: an HTTP fetcher with a PyPI-shaped URL. -/
def c7Fetcher : Fetcher :=
  { name := "foo", url := "https://pypi.io/packages/source/f/foo/foo-1.0.tar.gz",
    isHttp := true }

/-- Witness for C7: with budget 5, the original URL gets 3 attempts and
fails, the corrected URL gets the remaining 2 and succeeds, and the result
carries the corrected URL. -/
theorem crm_C7_pypi_retry_split_witness :
    originalRetries 5 + correctedRetries 5 = 5 ∧
    fetchArchive c7World c7Fetcher (originalRetries 5) =
      Except.error FetchErr.fetchError ∧
    fetchCorrectedArchive c7World c7Reader c7Fetcher 5 =
      Except.ok
        (Fetcher.mk "foo" "https://pypi.org/packages/source/f/foo-pkg/foo_pkg-1.0.tar.gz" true,
         some "https://pypi.org/packages/source/f/foo-pkg/foo_pkg-1.0.tar.gz") := by
  refine ⟨(crm_C7_pypi_retry_split c7World c7Reader c7Fetcher 5 rfl (by decide)).1,
    by decide, ?_⟩
  exact (crm_C7_pypi_retry_split c7World c7Reader c7Fetcher 5 rfl (by decide)).2.2.1
    (by decide) "https://pypi.org/packages/source/f/foo-pkg/foo_pkg-1.0.tar.gz"
    (by decide) (by decide)

end CRM
